import Mathlib

/-!
# Buzzhive firmware: hive sensor and base station

A shallow embedding of the two firmware images of the repository
(`firmware/esp32-hive-sensor` and `firmware/esp32-base-station`) together with
theorems about the wire format, the dispatcher, the classifier, the duty cycle
and the feature extractor.

Conventions of the embedding.

* Machine integers are `Nat` / `Int`; every conversion between widths is an
  explicit reduction modulo `2 ^ w`.
* C arrays reached through a pointer are functions `Nat → α` (index to cell).
* `float` values are idealised as rationals: arithmetic is exact, there is no
  rounding, no infinity and no NaN.  Functions of `libm` are parameters.
* Calls into the Arduino runtime that the firmware makes for their effect
  (radio, HTTP, serial lookups, sleep) are recorded as a list of events.
* The ESP32 is little-endian and both packet structs are declared
  `__attribute__((packed))`, so the byte image of a struct is the
  concatenation of the little-endian images of its fields.
-/

namespace Buzzhive

/-! ## Machine integers and byte images -/

/-- Little-endian byte image of the low `w` bytes of `v`. -/
def leBytes : Nat → Nat → List Nat
  | 0, _ => []
  | w + 1, v => (v % 256) :: leBytes w (v / 256)

/-- Unsigned value of a little-endian byte sequence. -/
def leValue : List Nat → Nat
  | [] => 0
  | b :: bs => b + 256 * leValue bs

/-- Conversion of an integer to the unsigned type of `w` bits. -/
def toUInt (w : Nat) (x : Int) : Nat := (x % (2 : Int) ^ w).toNat

/-- Reading of a `w`-bit pattern as a signed (two's complement) integer. -/
def toSInt (w : Nat) (n : Nat) : Int :=
  if n % 2 ^ w < 2 ^ (w - 1) then ((n % 2 ^ w : Nat) : Int)
  else ((n % 2 ^ w : Nat) : Int) - (2 : Int) ^ w

/-- Bytes `o .. o + w - 1` of a receive buffer; a byte that was never received
reads as `0`. -/
def bytesAt (rx : List Nat) (o w : Nat) : List Nat :=
  (List.range w).map (fun j => rx.getD (o + j) 0)

/-- Unsigned little-endian field of `w` bytes at offset `o`. -/
def fieldAt (rx : List Nat) (o w : Nat) : Nat := leValue (bytesAt rx o w)

/-- C conversion of a floating value to an integer type: truncation toward
zero. -/
def truncToInt (x : ℚ) : Int := if 0 ≤ x then ⌊x⌋ else ⌈x⌉

/-- Iteration of `for (i = lo; i < lo + n; i++) s = body i s`. -/
def forLoop {σ : Type} (lo : Nat) : Nat → (Nat → σ → σ) → σ → σ
  | 0, _, s => s
  | n + 1, body, s => forLoop (lo + 1) n body (body lo s)

/-- Store `v` in cell `i` of an array. -/
def store {α : Type} (a : Nat → α) (i : Nat) (v : α) : Nat → α :=
  fun j => if j = i then v else a j

/-! ## Hive sensor: packet (`esp32-hive-sensor/src/main.cpp`) -/

namespace HiveSensor

/-- The sensor's `struct __attribute__((packed)) BuzzhivePacket`. -/
structure BuzzhivePacket where
  hiveId : Nat
  queenStatus : Nat
  anomalyScore : Nat
  temperature : Int
  humidity : Nat
  batteryMv : Nat
  timestamp : Nat
  featureHash : List Nat
  deriving Repr, DecidableEq

/-- The field values a `BuzzhivePacket` can hold: each field lies in the range
of its C type. -/
def BuzzhivePacket.InRange (p : BuzzhivePacket) : Prop :=
  p.hiveId < 256 ∧ p.queenStatus < 256 ∧ p.anomalyScore < 256 ∧
  (-32768 ≤ p.temperature ∧ p.temperature < 32768) ∧
  p.humidity < 256 ∧ p.batteryMv < 65536 ∧ p.timestamp < 4294967296 ∧
  p.featureHash.length = 4 ∧ ∀ b ∈ p.featureHash, b < 256

/-- Bytes handed to `LoRa.write((uint8_t*)&packet, sizeof(packet))`: the
memory image of the packed struct. -/
def packetBytes (p : BuzzhivePacket) : List Nat :=
  leBytes 1 p.hiveId ++ leBytes 1 p.queenStatus ++ leBytes 1 p.anomalyScore ++
  leBytes 2 (toUInt 16 p.temperature) ++ leBytes 1 p.humidity ++
  leBytes 2 p.batteryMv ++ leBytes 4 p.timestamp ++
  (List.range 4).map (fun j => p.featureHash.getD j 0 % 256)

end HiveSensor

/-! ## Base station: packets (`esp32-base-station/src/main.cpp`) -/

namespace BaseStation

/-- The base station's `struct __attribute__((packed)) BuzzhivePacket`. -/
structure BuzzhivePacket where
  hiveId : Nat
  queenStatus : Nat
  anomalyScore : Nat
  temperature : Int
  humidity : Nat
  batteryMv : Nat
  timestamp : Nat
  featureHash : List Nat
  deriving Repr, DecidableEq

/-- The base station's `struct __attribute__((packed)) BuzzhivePacketFull`;
each of the 78 `float` cells is kept as its 32-bit pattern. -/
structure BuzzhivePacketFull where
  hiveId : Nat
  temperature : Int
  humidity : Nat
  batteryMv : Nat
  mfccFeatures : Nat → Nat

/-- Value of `sizeof(BuzzhivePacket)`: the sum of the field widths. -/
def sizeofBuzzhivePacket : Nat := 1 + 1 + 1 + 2 + 1 + 2 + 4 + 4

/-- Value of `sizeof(BuzzhivePacketFull)`: the sum of the field widths. -/
def sizeofBuzzhivePacketFull : Nat := 1 + 2 + 1 + 2 + 78 * 4

/-- The struct left by `LoRa.readBytes((uint8_t*)&packet, sizeof(packet))` for
a `BuzzhivePacket`. -/
def readPacket (rx : List Nat) : BuzzhivePacket where
  hiveId := fieldAt rx 0 1
  queenStatus := fieldAt rx 1 1
  anomalyScore := fieldAt rx 2 1
  temperature := toSInt 16 (fieldAt rx 3 2)
  humidity := fieldAt rx 5 1
  batteryMv := fieldAt rx 6 2
  timestamp := fieldAt rx 8 4
  featureHash := bytesAt rx 12 4

/-- The struct left by `LoRa.readBytes((uint8_t*)&packet, sizeof(packet))` for
a `BuzzhivePacketFull`. -/
def readPacketFull (rx : List Nat) : BuzzhivePacketFull where
  hiveId := fieldAt rx 0 1
  temperature := toSInt 16 (fieldAt rx 1 2)
  humidity := fieldAt rx 3 1
  batteryMv := fieldAt rx 4 2
  mfccFeatures := fun k => if k < 78 then fieldAt rx (6 + 4 * k) 4 else 0

/-- The field values a `BuzzhivePacketFull` can hold. -/
def BuzzhivePacketFull.InRange (p : BuzzhivePacketFull) : Prop :=
  p.hiveId < 256 ∧ (-32768 ≤ p.temperature ∧ p.temperature < 32768) ∧
  p.humidity < 256 ∧ p.batteryMv < 65536 ∧
  ∀ k, k < 78 → p.mfccFeatures k < 4294967296

/-- Memory image of a packed `BuzzhivePacketFull`. -/
def packetFullBytes (p : BuzzhivePacketFull) : List Nat :=
  leBytes 1 p.hiveId ++ leBytes 2 (toUInt 16 p.temperature) ++
  leBytes 1 p.humidity ++ leBytes 2 p.batteryMv ++
  (List.range 78).flatMap (fun k => leBytes 4 (p.mfccFeatures k))

/-! ## Base station: classifier (`esp32-base-station/src/xgboost_inference.h`) -/

/-- Modelled from the spec: the constant `NUM_FEATURES` of `buzzhive_ml.h`, a
header that is not among the sources; the spec normalises "all 78 indices". -/
def NUM_FEATURES : Nat := 78

/-- The function `normalizeFeatures`; `MEAN` and `SCALE` are the scaler tables
of `buzzhive_ml.h`, `normalized` is the output array as the caller passes it. -/
def normalizeFeatures (MEAN SCALE : Nat → ℚ) (raw : Nat → ℚ) (normalized : Nat → ℚ) :
    Nat → ℚ :=
  forLoop 0 NUM_FEATURES
    (fun i out => store out i ((raw i - MEAN i) / SCALE i)) normalized

/-- The statement `a[i] += v`. -/
def addTo (a : Nat → ℚ) (i : Nat) (v : ℚ) : Nat → ℚ := store a i (a i + v)

/-- The function `xgboostPredict`; `scores` is the output array as passed. -/
def xgboostPredict (features : Nat → ℚ) (scores : Nat → ℚ) : Nat → ℚ :=
  let s := store scores 0 0.0
  let s := store s 1 0.0
  let s := store s 2 0.0
  let s := store s 3 0.0
  let mfcc1_mean := features 0
  let mfcc2_mean := features 1
  let mfcc1_std := features 39
  let delta1_mean := features 13
  -- Rule 1
  let s :=
    if mfcc1_mean > 0.5 then addTo (addTo s 3 1.5) 0 0.8
    else if mfcc1_mean < -0.5 then addTo (addTo s 1 1.2) 2 0.5
    else s
  -- Rule 2
  let s := if mfcc1_std > 1.0 then addTo (addTo s 1 0.8) 2 0.6 else s
  -- Rule 3
  let s :=
    if mfcc2_mean > 0.3 ∧ mfcc1_mean > 0 then addTo s 3 1.0
    else if mfcc2_mean < -0.3 then addTo s 0 0.7
    else s
  -- Rule 4
  let s := if delta1_mean > 0.5 then addTo s 2 0.9 else s
  -- Default bias
  addTo s 3 0.3

/-! ## Base station: dispatcher (`esp32-base-station/src/main.cpp`) -/

/-- The table `QUEEN_STATUS_NAMES`. -/
def QUEEN_STATUS_NAMES : List String :=
  ["Queenright", "Queenless", "Queen_Hatched", "Queen_Accepted"]

/-- The JSON document built by `uploadToCloud`.  `queen_status_name` is `none`
when the index lies outside `QUEEN_STATUS_NAMES`. -/
structure Payload where
  hive_id : Nat
  queen_status : Nat
  queen_status_name : Option String
  anomaly_score : Nat
  temperature : ℚ
  humidity : Nat
  battery_mv : Nat
  timestamp : Nat
  deriving DecidableEq

/-- Observable steps of the base station while it handles one packet. -/
inductive Event where
  /-- A read of `QUEEN_STATUS_NAMES[index]`. -/
  | nameLookup (index : Nat)
  /-- An invocation of `runInference`. -/
  | runInference
  /-- An invocation of `uploadToCloud` with its six arguments. -/
  | uploadToCloud (hiveId queenStatus anomalyScore : Nat) (temperature : ℚ)
      (humidity batteryMv : Nat)
  /-- The request `http.POST(payload)`. -/
  | post (payload : Payload)
  deriving DecidableEq

/-- True on invocations of `uploadToCloud`. -/
def Event.isUpload : Event → Bool
  | .uploadToCloud .. => true
  | _ => false

/-- True on invocations of `runInference`. -/
def Event.isInference : Event → Bool
  | .runInference => true
  | _ => false

/-- True on HTTP requests. -/
def Event.isPost : Event → Bool
  | .post _ => true
  | _ => false

/-- The index of a read of `QUEEN_STATUS_NAMES`, if the event is one. -/
def Event.lookupIndex : Event → Option Nat
  | .nameLookup index => some index
  | _ => none

/-- What the base station finds around it while it handles one packet. -/
structure Env where
  /-- The global flag `wifiConnected`. -/
  wifiConnected : Bool
  /-- Whether `WiFi.status() == WL_CONNECTED`. -/
  wifiStatusConnected : Bool
  /-- The value returned by `millis()`. -/
  millis : Nat
  /-- The value returned by `http.POST(payload)`. -/
  httpCode : Int

/-- The loop "Find class with highest score" of `runInference`: the pair
`(bestClass, bestScore)` it ends with. -/
def findBestClass (scores : Nat → ℚ) : Nat × ℚ :=
  forLoop 1 3
    (fun i best => if scores i > best.2 then (i % 256, scores i) else best)
    (0, scores 0)

/-- The function `runInference`: the returned class and the events.  The two
local arrays start out as zero; both are written in full before they are
read. -/
def runInference (MEAN SCALE : Nat → ℚ) (features : Nat → ℚ) : Nat × List Event :=
  let normalizedFeatures := normalizeFeatures MEAN SCALE features (fun _ => 0)
  let scores := xgboostPredict normalizedFeatures (fun _ => 0)
  let bestClass := (findBestClass scores).1
  (bestClass, [Event.runInference, Event.nameLookup bestClass])

/-- The function `uploadToCloud`: the returned flag and the events. -/
def uploadToCloud (env : Env) (hiveId queenStatus anomalyScore : Nat) (temperature : ℚ)
    (humidity batteryMv : Nat) : Bool × List Event :=
  let call := Event.uploadToCloud hiveId queenStatus anomalyScore temperature humidity batteryMv
  if !env.wifiConnected || !env.wifiStatusConnected then
    (false, [call])
  else
    let doc : Payload :=
      { hive_id := hiveId
        queen_status := queenStatus
        queen_status_name := QUEEN_STATUS_NAMES[queenStatus]?
        anomaly_score := anomalyScore
        temperature := temperature
        humidity := humidity
        battery_mv := batteryMv
        timestamp := env.millis % 2 ^ 32 }
    let httpCode := env.httpCode
    if httpCode = 200 ∨ httpCode = 201 then
      (true, [call, Event.nameLookup queenStatus, Event.post doc])
    else
      (false, [call, Event.nameLookup queenStatus, Event.post doc])

/-- The function `processPacket`: the events of handling a packet of
`packetSize` bytes whose content is `rx`.  `f32` gives the value of a `float`
bit pattern.  Serial output, LED and delays are left out. -/
def processPacket (MEAN SCALE : Nat → ℚ) (f32 : Nat → ℚ) (env : Env)
    (packetSize : Int) (rx : List Nat) : List Event :=
  if toUInt 32 packetSize = sizeofBuzzhivePacket then
    let packet := readPacket rx
    let temp : ℚ := (packet.temperature : ℚ) / 100.0
    [Event.nameLookup packet.queenStatus] ++
      (uploadToCloud env packet.hiveId packet.queenStatus packet.anomalyScore
        temp packet.humidity packet.batteryMv).2
  else if toUInt 32 packetSize = sizeofBuzzhivePacketFull then
    let packet := readPacketFull rx
    let r := runInference MEAN SCALE (fun k => f32 (packet.mfccFeatures k))
    let queenStatus := r.1
    let anomalyScore := 0
    let temp : ℚ := (packet.temperature : ℚ) / 100.0
    r.2 ++
      (uploadToCloud env packet.hiveId queenStatus anomalyScore
        temp packet.humidity packet.batteryMv).2
  else
    []

end BaseStation

/-! ## Hive sensor: feature extraction (`esp32-hive-sensor/src/mfcc.h`) -/

namespace HiveSensor

def N_MFCC : Nat := 13
def N_FFT : Nat := 2048
def HOP_LENGTH : Nat := 512
def N_MELS : Nat := 40
def FMIN : ℚ := 0.0
def FMAX : ℚ := 8000.0
def N_FEATURES : Nat := 78

/-- The functions and the constant of `math.h` that `mfcc.h` calls. -/
structure Libm where
  /-- The constant `M_PI`. -/
  pi : ℚ
  cos : ℚ → ℚ
  log : ℚ → ℚ
  log10 : ℚ → ℚ
  pow : ℚ → ℚ → ℚ
  sqrt : ℚ → ℚ

/-- Conversion of an integer value to `int16_t`; a value out of range wraps. -/
def toInt16 (x : Int) : Int := toSInt 16 (toUInt 16 x)

/-- Store `v` in cell `[f][i]` of a two-dimensional table. -/
def store2 (a : Nat → Nat → ℚ) (f i : Nat) (v : ℚ) : Nat → Nat → ℚ :=
  fun g j => if g = f ∧ j = i then v else a g j

/-- Read of cell `b` of a local array through an `int` index; a cell before
the start of the array reads as `0`. -/
def cellAt (a : Nat → ℚ) (b : Int) : ℚ := if 0 ≤ b then a b.toNat else 0

/-- The function `melScale`. -/
def melScale (L : Libm) (freq : ℚ) : ℚ := 2595.0 * L.log10 (1.0 + freq / 700.0)

/-- The function `invMelScale`. -/
def invMelScale (L : Libm) (mel : ℚ) : ℚ := 700.0 * (L.pow 10.0 (mel / 2595.0) - 1.0)

/-- The function `dct`. -/
def dct (L : Libm) (input : Nat → ℚ) (output : Nat → ℚ) (n : Nat) : Nat → ℚ :=
  forLoop 0 n
    (fun k out =>
      let sum := forLoop 0 n
        (fun i sum =>
          sum + input i * L.cos (L.pi * (k : ℚ) * ((2 * i + 1 : Nat) : ℚ) / (2.0 * (n : ℚ))))
        0.0
      store out k sum)
    output

/-- The function `computePowerSpectrum`. -/
def computePowerSpectrum (L : Libm) (frame : Nat → Int) (frameSize : Nat)
    (spectrum : Nat → ℚ) : Nat → ℚ :=
  forLoop 0 (frameSize / 2)
    (fun i sp =>
      let window : ℚ := 0.54 - 0.46 * L.cos (2 * L.pi * (i : ℚ) / (((frameSize : Int) - 1 : Int) : ℚ))
      let real : ℚ := (frame i : ℚ) * window / 32768.0
      let imag : ℚ := (frame (frameSize - 1 - i) : ℚ) * window / 32768.0
      store sp i (real * real + imag * imag))
    spectrum

/-- The loop "Apply Mel filterbank" of `extractMFCC`. -/
def melFilterbank (L : Libm) (sampleRate : Int) (spectrum : Nat → ℚ)
    (melEnergies : Nat → ℚ) : Nat → ℚ :=
  forLoop 0 N_MELS
    (fun m mel =>
      let melLow : ℚ :=
        melScale L FMIN + (m : ℚ) * (melScale L FMAX - melScale L FMIN) / (N_MELS : ℚ)
      let melHigh : ℚ :=
        melScale L FMIN + ((m + 1 : Nat) : ℚ) * (melScale L FMAX - melScale L FMIN) / (N_MELS : ℚ)
      let binLow : Int := truncToInt (invMelScale L melLow * (N_FFT : ℚ) / (sampleRate : ℚ))
      let binHigh : Int := truncToInt (invMelScale L melHigh * (N_FFT : ℚ) / (sampleRate : ℚ))
      let sum := forLoop 0 (min binHigh ((N_FFT / 2 : Nat) : Int) - binLow).toNat
        (fun j sum => sum + cellAt spectrum (binLow + (j : Int))) 0.0
      store mel m (L.log (sum + 1e-10)))
    melEnergies

/-- Body of the loop "Process each frame" of `extractMFCC`: the array `mfcc`
after frame `f`.  Each frame overwrites the scratch arrays `spectrum`,
`melEnergies` and `mfcc` in full before it reads them. -/
def frameMFCC (L : Libm) (samples : Nat → Int) (sampleRate : Int) (f : Nat) : Nat → ℚ :=
  let offset := f * HOP_LENGTH
  let spectrum := computePowerSpectrum L (fun j => samples (offset + j)) N_FFT (fun _ => 0)
  let melEnergies := melFilterbank L sampleRate spectrum (fun _ => 0)
  dct L melEnergies (fun _ => 0) N_MFCC

/-- The variable `numFrames` of `extractMFCC` after its first two statements.
`numSamples` is a `size_t`, so the subtraction and the division are unsigned
32-bit operations whose result is then converted to `int`. -/
def numFrames (numSamples : Nat) : Int :=
  let n : Int :=
    toSInt 32 ((toUInt 32 ((numSamples : Int) - (N_FFT : Int)) / HOP_LENGTH + 1) % 2 ^ 32)
  if n ≤ 0 then 1 else n

/-- The variable `actualFrames` of `extractMFCC`. -/
def actualFrames (numSamples : Nat) : Nat := (min (numFrames numSamples) 100).toNat

/-- The table `mfccFrames` after the loop "Process each frame". -/
def mfccFramesTable (L : Libm) (samples : Nat → Int) (numSamples : Nat)
    (sampleRate : Int) : Nat → Nat → ℚ :=
  forLoop 0 (actualFrames numSamples)
    (fun f tbl =>
      let mfcc := frameMFCC L samples sampleRate f
      forLoop 0 N_MFCC (fun i tbl => store2 tbl f i (mfcc i)) tbl)
    (fun _ _ => 0)

/-- The loops "Compute delta and delta-delta MFCCs" of `extractMFCC`: the
table built from `src` (`deltaFrames` from `mfccFrames`, `delta2Frames` from
`deltaFrames`). -/
def deltaTable (actualFrames : Nat) (src : Nat → Nat → ℚ) : Nat → Nat → ℚ :=
  forLoop 0 actualFrames
    (fun f tbl =>
      forLoop 0 N_MFCC
        (fun i tbl =>
          if f > 0 ∧ (f : Int) < (actualFrames : Int) - 1 then
            store2 tbl f i ((src (f + 1) i - src (f - 1) i) / 2.0)
          else
            store2 tbl f i 0)
        tbl)
    (fun _ _ => 0)

/-- The output of `extractMFCC` while it aggregates: the array `features`, the
cursor `idx`, and the indices written so far, in order. -/
structure Out where
  features : Nat → ℚ
  idx : Nat
  written : List Nat

/-- The statement `features[idx++] = v`. -/
def Out.emit (s : Out) (v : ℚ) : Out :=
  { features := store s.features s.idx v
    idx := s.idx + 1
    written := s.written ++ [s.idx] }

/-- One of the three "mean" loops of `extractMFCC`. -/
def meanLoop (actualFrames : Nat) (tbl : Nat → Nat → ℚ) (s : Out) : Out :=
  forLoop 0 N_MFCC
    (fun i s =>
      let sum := forLoop 0 actualFrames (fun f sum => sum + tbl f i) 0
      s.emit (sum / (actualFrames : ℚ)))
    s

/-- One of the three "std" loops of `extractMFCC`; the mean is read back from
`features[base + i]`. -/
def stdLoop (L : Libm) (actualFrames : Nat) (tbl : Nat → Nat → ℚ) (base : Nat)
    (s : Out) : Out :=
  forLoop 0 N_MFCC
    (fun i s =>
      let mean := s.features (base + i)
      let sumSq := forLoop 0 actualFrames
        (fun f sumSq =>
          let diff := tbl f i - mean
          sumSq + diff * diff)
        0
      s.emit (L.sqrt (sumSq / (actualFrames : ℚ))))
    s

/-- The function `extractMFCC`; `features` is the output array as passed. -/
def extractMFCC (L : Libm) (samples : Nat → Int) (numSamples : Nat) (sampleRate : Int)
    (features : Nat → ℚ) : Out :=
  let actualFrames := actualFrames numSamples
  let mfccFrames := mfccFramesTable L samples numSamples sampleRate
  let deltaFrames := deltaTable actualFrames mfccFrames
  let delta2Frames := deltaTable actualFrames deltaFrames
  let s : Out := { features := features, idx := 0, written := [] }
  let s := meanLoop actualFrames mfccFrames s
  let s := meanLoop actualFrames deltaFrames s
  let s := meanLoop actualFrames delta2Frames s
  let s := stdLoop L actualFrames mfccFrames 0 s
  let s := stdLoop L actualFrames deltaFrames N_MFCC s
  let s := stdLoop L actualFrames delta2Frames (2 * N_MFCC) s
  s

/-- The across-frame mean of coefficient `i` of a per-frame table, in the
spec's words: the sum over the `F` frames divided by `F`. -/
def acrossFrameMean (F : Nat) (tbl : Nat → Nat → ℚ) (i : Nat) : ℚ :=
  (∑ f in Finset.range F, tbl f i) / (F : ℚ)

/-- The across-frame (population) standard deviation of coefficient `i` of a
per-frame table, in the spec's words: the square root of the mean squared
deviation from the across-frame mean. -/
def acrossFrameStd (L : Libm) (F : Nat) (tbl : Nat → Nat → ℚ) (i : Nat) : ℚ :=
  L.sqrt ((∑ f in Finset.range F, (tbl f i - acrossFrameMean F tbl i) ^ 2) / (F : ℚ))

/-- The indices of `frame` that `computePowerSpectrum` reads, in order:
`frame[i]` and `frame[frameSize - 1 - i]` for each `i` of its loop. -/
def computePowerSpectrumReads (frameSize : Nat) : List Nat :=
  (List.range (frameSize / 2)).flatMap (fun i => [i, frameSize - 1 - i])

/-- The indices of `samples` that `extractMFCC` reads, in order: for each
processed frame `f`, those of `computePowerSpectrum(&samples[offset], N_FFT,
spectrum)` with `offset = f * HOP_LENGTH`. -/
def sampleReads (numSamples : Nat) : List Nat :=
  (List.range (actualFrames numSamples)).flatMap
    (fun f => (computePowerSpectrumReads N_FFT).map (fun j => f * HOP_LENGTH + j))

/-- The row indices `f` of the tables `mfccFrames`, `deltaFrames` and
`delta2Frames` that `extractMFCC` writes (each of its frame loops runs over
`f < actualFrames`). -/
def frameRowsWritten (numSamples : Nat) : List Nat :=
  List.range (actualFrames numSamples)

/-- The DCT-II of the first `N` entries of `input`, in the spec's words:
coefficient `k` is the sum over `i = 0..N-1` of
`input[i] * cos(pi * k * (2i + 1) / (2 * N))`. -/
def dctII (L : Libm) (input : Nat → ℚ) (N : Nat) (k : Nat) : ℚ :=
  ∑ i in Finset.range N,
    input i * L.cos (L.pi * (k : ℚ) * ((2 * i + 1 : Nat) : ℚ) / (2 * (N : ℚ)))

/-- The array `melEnergies` of frame `f` in `extractMFCC`. -/
def frameMelEnergies (L : Libm) (samples : Nat → Int) (sampleRate : Int) (f : Nat) :
    Nat → ℚ :=
  melFilterbank L sampleRate
    (computePowerSpectrum L (fun j => samples (f * HOP_LENGTH + j)) N_FFT (fun _ => 0))
    (fun _ => 0)

/-! ## Hive sensor: duty cycle (`esp32-hive-sensor/src/main.cpp`, `config.h`) -/

def HIVE_ID : Nat := 1
def SAMPLE_RATE : Nat := 22050
def RECORD_DURATION_SEC : Nat := 10
def AUDIO_BUFFER_SIZE : Nat := SAMPLE_RATE * RECORD_DURATION_SEC
def ACTIVE_SEASON_INTERVAL_MS : Nat := 15 * 60 * 1000
def WINTER_INTERVAL_MS : Nat := 2 * 60 * 60 * 1000
def ALERT_MODE_INTERVAL_MS : Nat := 5 * 60 * 1000

/-- The constant `WINTER_TEMP_THRESHOLD` of `config.h`, documented there as
"Temperature threshold for winter mode (Celsius)". -/
def WINTER_TEMP_THRESHOLD : ℚ := 15.0

/-- What the sensor finds around it during one cycle of `loop`. -/
structure Cycle where
  /-- The byte count reported by the `k`-th call of `i2s_read`. -/
  i2sBytes : Nat → Nat
  /-- The value returned by the `k`-th call of `millis()` in `recordAudio`
  (call `0` sets `startTime`). -/
  millis : Nat → Nat
  /-- The samples the microphone has left in `audioBuffer`. -/
  recorded : Nat → Int
  /-- The value of `sht31.readTemperature()` in `transmitData`. -/
  tempAtTransmit : ℚ
  /-- The value of `sht31.readHumidity()` in `transmitData`. -/
  humidAtTransmit : ℚ
  /-- The value of `analogRead(A0)`. -/
  analogA0 : Nat
  /-- The value of `millis()` in `transmitData`. -/
  millisAtTransmit : Nat
  /-- The value of `sht31.readTemperature()` in `isWinterMode`. -/
  tempAtSleep : ℚ

/-- Observable steps of the sensor during one cycle. -/
inductive Event where
  /-- An invocation of `extractMFCCFeatures`. -/
  | extractMFCCFeatures
  /-- The call `LoRa.write` of `transmitData`, with the bytes written. -/
  | loraWrite (bytes : List Nat)
  | i2sDriverUninstall
  | loraSleep
  /-- The call `esp_sleep_enable_timer_wakeup`, with its argument in
  microseconds. -/
  | sleepTimerWakeup (us : Nat)
  | deepSleepStart
  deriving DecidableEq

/-- True on feature extraction. -/
def Event.isExtract : Event → Bool
  | .extractMFCCFeatures => true
  | _ => false

/-- True on radio transmission. -/
def Event.isTransmit : Event → Bool
  | .loraWrite _ => true
  | _ => false

/-- The loop of `recordAudio` from its `k`-th iteration on, with
`totalSamples` samples read so far; `none` when `fuel` iterations do not
finish it.  The driver reports at most the `toRead` bytes it was asked for. -/
def recordLoop (c : Cycle) (startTime : Nat) : Nat → Nat → Nat → Option Bool
  | 0, _, _ => none
  | fuel + 1, k, totalSamples =>
    if totalSamples < AUDIO_BUFFER_SIZE then
      let toRead := min 1024 ((AUDIO_BUFFER_SIZE - totalSamples) * 2)
      let bytesRead := min (c.i2sBytes k) toRead
      let totalSamples := totalSamples + bytesRead / 2
      if toUInt 32 ((c.millis (k + 1) : Int) - (startTime : Int))
          > (RECORD_DURATION_SEC + 2) * 1000 then
        some false
      else
        recordLoop c startTime fuel (k + 1) totalSamples
    else
      some true

/-- The function `recordAudio`. -/
def recordAudio (c : Cycle) (fuel : Nat) : Option Bool :=
  recordLoop c (c.millis 0 % 2 ^ 32) fuel 0 0

/-- The function `extractMFCCFeatures`: the buffer after pre-emphasis and
normalisation, and the output of `extractMFCC` on it. -/
def extractMFCCFeatures (L : Libm) (audioBuffer : Nat → Int) (mfccFeatures : Nat → ℚ) :
    (Nat → Int) × Out :=
  -- Apply pre-emphasis filter, from the last sample down to sample 1
  let buf := forLoop 0 (AUDIO_BUFFER_SIZE - 1)
    (fun j buf =>
      let i := AUDIO_BUFFER_SIZE - 1 - j
      store buf i (toInt16 (truncToInt ((buf i : ℚ) - 0.97 * (buf (i - 1) : ℚ)))))
    audioBuffer
  -- Normalize audio
  let maxVal : Int := forLoop 0 AUDIO_BUFFER_SIZE
    (fun i maxVal => if |buf i| > maxVal then toInt16 |buf i| else maxVal) 0
  let buf :=
    if maxVal > 0 then
      forLoop 0 AUDIO_BUFFER_SIZE
        (fun i buf => store buf i (toInt16 (Int.tdiv (buf i * 32767) maxVal))) buf
    else buf
  (buf, extractMFCC L buf AUDIO_BUFFER_SIZE SAMPLE_RATE mfccFeatures)

/-- The packet built by `transmitData`; `floatBits` gives the 32-bit pattern
of a `float`. -/
def transmitPacket (floatBits : ℚ → Nat) (c : Cycle) (mfccFeatures : Nat → ℚ)
    (queenStatus anomalyScore : Nat) : BuzzhivePacket :=
  let temp := c.tempAtTransmit
  let humid := c.humidAtTransmit
  { hiveId := HIVE_ID
    queenStatus := queenStatus % 256
    anomalyScore := anomalyScore % 256
    temperature := toInt16 (truncToInt (temp * 100))
    humidity := toUInt 8 (truncToInt humid)
    batteryMv := (c.analogA0 * 2) % 65536
    timestamp := (c.millisAtTransmit % 2 ^ 32) / 1000
    featureHash := leBytes 4 (floatBits (mfccFeatures 0)) }

/-- The function `transmitData`. -/
def transmitData (floatBits : ℚ → Nat) (c : Cycle) (mfccFeatures : Nat → ℚ)
    (queenStatus anomalyScore : Nat) : List Event :=
  [Event.loraWrite (packetBytes (transmitPacket floatBits c mfccFeatures queenStatus anomalyScore))]

/-- The function `isWinterMode`; `temp` is the value of
`sht31.readTemperature()`. -/
def isWinterMode (temp : ℚ) : Bool := decide (temp < 20.0)

/-- The function `getSleepDuration`; `temp` is the temperature that
`isWinterMode` reads. -/
def getSleepDuration (temp : ℚ) : Nat :=
  if isWinterMode temp then WINTER_INTERVAL_MS else ACTIVE_SEASON_INTERVAL_MS

/-- The function `enterDeepSleep`; it does not return. -/
def enterDeepSleep (durationMs : Nat) : List Event :=
  [Event.i2sDriverUninstall, Event.loraSleep,
   Event.sleepTimerWakeup ((durationMs % 2 ^ 32) * 1000), Event.deepSleepStart]

/-- The outcome of one cycle of `loop`: the events and the global array
`mfccFeatures` at the moment the node falls asleep. -/
structure CycleResult where
  events : List Event
  mfccFeatures : Nat → ℚ

/-- The function `loop`, for one cycle; `none` when `fuel` iterations do not
finish the recording.  `mfccFeatures` is the global array on entry. -/
def loop (L : Libm) (floatBits : ℚ → Nat) (c : Cycle) (mfccFeatures : Nat → ℚ)
    (fuel : Nat) : Option CycleResult :=
  match recordAudio c fuel with
  | none => none
  | some false =>
    some { events := enterDeepSleep (60 * 1000), mfccFeatures := mfccFeatures }
  | some true =>
    let r := extractMFCCFeatures L c.recorded mfccFeatures
    let mfccFeatures := r.2.features
    let queenStatus := 3
    let anomalyScore := 0
    some
      { events :=
          [Event.extractMFCCFeatures] ++
          transmitData floatBits c mfccFeatures queenStatus anomalyScore ++
          enterDeepSleep (getSleepDuration c.tempAtSleep)
        mfccFeatures := mfccFeatures }

end HiveSensor

end Buzzhive

namespace Buzzhive

/-! ## General lemmas on loops and arrays -/

theorem store_apply {α : Type} (a : Nat → α) (i j : Nat) (v : α) :
    store a i v j = if j = i then v else a j := rfl

theorem forLoop_succ {σ : Type} (lo n : Nat) (body : Nat → σ → σ) (s : σ) :
    forLoop lo (n + 1) body s = forLoop (lo + 1) n body (body lo s) := rfl

theorem forLoop_store {α : Type} (g : Nat → α) (n : Nat) :
    ∀ (lo : Nat) (a : Nat → α) (j : Nat),
      forLoop lo n (fun i out => store out i (g i)) a j
        = if lo ≤ j ∧ j < lo + n then g j else a j := by
  induction n with
  | zero =>
    intro lo a j
    have : ¬ (lo ≤ j ∧ j < lo + 0) := by omega
    rw [if_neg this]
    rfl
  | succ n ih =>
    intro lo a j
    rw [forLoop_succ, ih]
    by_cases h1 : lo + 1 ≤ j ∧ j < lo + 1 + n
    · have h2 : lo ≤ j ∧ j < lo + (n + 1) := by omega
      rw [if_pos h1, if_pos h2]
    · rw [if_neg h1, store_apply]
      by_cases h3 : j = lo
      · have h2 : lo ≤ j ∧ j < lo + (n + 1) := by omega
        rw [if_pos h3, if_pos h2, h3]
      · have h2 : ¬ (lo ≤ j ∧ j < lo + (n + 1)) := by omega
        rw [if_neg h3, if_neg h2]

theorem forLoop_sum (g : Nat → ℚ) (n : Nat) :
    ∀ (lo : Nat) (s : ℚ),
      forLoop lo n (fun f sum => sum + g f) s
        = s + ∑ f in Finset.range n, g (lo + f) := by
  induction n with
  | zero => intro lo s; simp [forLoop]
  | succ n ih =>
    intro lo s
    rw [forLoop_succ, ih, Finset.sum_range_succ']
    have : ∀ f, g (lo + 1 + f) = g (lo + (f + 1)) := fun f => by rw [Nat.add_assoc, Nat.add_comm 1 f]
    simp only [this, Nat.add_zero]
    ring

open HiveSensor BaseStation

/-! ## Wire format -/

theorem leBytes_length (w v : Nat) : (leBytes w v).length = w := by
  induction w generalizing v with
  | zero => rfl
  | succ w ih => simp [leBytes, ih]

theorem leValue_leBytes4 (v : Nat) (h : v < 4294967296) :
    leValue ((List.range 4).map (fun j => (leBytes 4 v).getD j 0)) = v := by
  simp [leBytes, leValue, List.range, List.range.loop]
  omega

theorem flatMap_leBytes_length (f : Nat → Nat) (n : Nat) :
    ((List.range n).flatMap (fun k => leBytes 4 (f k))).length = 4 * n := by
  induction n with
  | zero => rfl
  | succ n ih =>
    rw [List.range_succ, List.flatMap_append, List.length_append, ih]
    simp [leBytes_length]
    omega

theorem getD_flatMap_leBytes (f : Nat → Nat) (n k j : Nat) (hk : k < n) (hj : j < 4) :
    ((List.range n).flatMap (fun k => leBytes 4 (f k))).getD (4 * k + j) 0
      = (leBytes 4 (f k)).getD j 0 := by
  induction n with
  | zero => omega
  | succ n ih =>
    rw [List.range_succ, List.flatMap_append]
    by_cases hkn : k < n
    · rw [List.getD_append _ _ _ _ (by rw [flatMap_leBytes_length]; omega)]
      exact ih hkn
    · have hk2 : k = n := by omega
      subst hk2
      rw [List.getD_append_right _ _ _ _ (by rw [flatMap_leBytes_length]; omega)]
      rw [flatMap_leBytes_length]
      simp

/-- Round trip of a Variant A record through the sensor's byte image and the
base station's reader. -/
theorem readPacket_packetBytes (p : HiveSensor.BuzzhivePacket) (h : p.InRange) :
    (packetBytes p).length = 16 ∧
    (readPacket (packetBytes p)).hiveId = p.hiveId ∧
    (readPacket (packetBytes p)).queenStatus = p.queenStatus ∧
    (readPacket (packetBytes p)).anomalyScore = p.anomalyScore ∧
    (readPacket (packetBytes p)).temperature = p.temperature ∧
    (readPacket (packetBytes p)).humidity = p.humidity ∧
    (readPacket (packetBytes p)).batteryMv = p.batteryMv ∧
    (readPacket (packetBytes p)).timestamp = p.timestamp ∧
    (readPacket (packetBytes p)).featureHash = p.featureHash := by
  obtain ⟨h1, h2, h3, ⟨h4, h4b⟩, h5, h6, h7, h8, h9⟩ := h
  refine ⟨by simp [packetBytes, leBytes], ?_, ?_, ?_, ?_, ?_, ?_, ?_, ?_⟩
  · simp [packetBytes, leBytes, readPacket, fieldAt, bytesAt, leValue, List.range,
      List.range.loop]
    omega
  · simp [packetBytes, leBytes, readPacket, fieldAt, bytesAt, leValue, List.range,
      List.range.loop]
    omega
  · simp [packetBytes, leBytes, readPacket, fieldAt, bytesAt, leValue, List.range,
      List.range.loop]
    omega
  · simp [packetBytes, leBytes, readPacket, fieldAt, bytesAt, leValue, List.range,
      List.range.loop, toSInt, toUInt]
    omega
  · simp [packetBytes, leBytes, readPacket, fieldAt, bytesAt, leValue, List.range,
      List.range.loop]
    omega
  · simp [packetBytes, leBytes, readPacket, fieldAt, bytesAt, leValue, List.range,
      List.range.loop]
    omega
  · simp [packetBytes, leBytes, readPacket, fieldAt, bytesAt, leValue, List.range,
      List.range.loop]
    omega
  · obtain ⟨a, b, c, d, e, f, g, fh⟩ := p
    simp only at h8 h9
    match fh, h8, h9 with
    | [x0, x1, x2, x3], _, h9 =>
      simp at h9
      simp [packetBytes, leBytes, readPacket, fieldAt, bytesAt, leValue, List.range,
        List.range.loop]
      omega

/-- Round trip of a Variant B record through its packed byte image and the
base station's reader. -/
theorem readPacketFull_packetFullBytes (p : BuzzhivePacketFull) (h : p.InRange) :
    (packetFullBytes p).length = 318 ∧
    (readPacketFull (packetFullBytes p)).hiveId = p.hiveId ∧
    (readPacketFull (packetFullBytes p)).temperature = p.temperature ∧
    (readPacketFull (packetFullBytes p)).humidity = p.humidity ∧
    (readPacketFull (packetFullBytes p)).batteryMv = p.batteryMv ∧
    ∀ k, k < 78 →
      (readPacketFull (packetFullBytes p)).mfccFeatures k = p.mfccFeatures k := by
  obtain ⟨h1, ⟨h2, h2b⟩, h3, h4, h5⟩ := h
  refine ⟨?_, ?_, ?_, ?_, ?_, ?_⟩
  · simp only [packetFullBytes, List.length_append, flatMap_leBytes_length, leBytes_length]
  · simp only [packetFullBytes]
    generalize (List.range 78).flatMap _ = tl
    simp [leBytes, readPacketFull, fieldAt, bytesAt, leValue, List.range, List.range.loop]
    omega
  · simp only [packetFullBytes]
    generalize (List.range 78).flatMap _ = tl
    simp [leBytes, readPacketFull, fieldAt, bytesAt, leValue, List.range, List.range.loop,
      toSInt, toUInt]
    omega
  · simp only [packetFullBytes]
    generalize (List.range 78).flatMap _ = tl
    simp [leBytes, readPacketFull, fieldAt, bytesAt, leValue, List.range, List.range.loop]
    omega
  · simp only [packetFullBytes]
    generalize (List.range 78).flatMap _ = tl
    simp [leBytes, readPacketFull, fieldAt, bytesAt, leValue, List.range, List.range.loop]
    omega
  · intro k hk
    have hget : ∀ j, j < 4 → (packetFullBytes p).getD (6 + 4 * k + j) 0
        = (leBytes 4 (p.mfccFeatures k)).getD j 0 := by
      intro j hj
      unfold packetFullBytes
      rw [List.getD_append_right _ _ _ _ (by simp [leBytes]; omega)]
      have : 6 + 4 * k + j - (leBytes 1 p.hiveId ++ leBytes 2 (toUInt 16 p.temperature) ++
          leBytes 1 p.humidity ++ leBytes 2 p.batteryMv).length = 4 * k + j := by
        simp [leBytes]; omega
      rw [this]
      exact getD_flatMap_leBytes _ 78 k j hk hj
    have := leValue_leBytes4 (p.mfccFeatures k) (h5 k hk)
    simp only [readPacketFull, fieldAt, bytesAt, if_pos hk]
    rw [← this]
    congr 1
    apply List.map_congr_left
    intro j hj
    exact hget j (by simpa using hj)

/-- C1. Round trip of the wire format.  For every Variant A record whose
fields lie in the ranges of their C types, the sensor's packed byte image has
exactly 16 bytes (the sum of the field widths, so no padding) and the base
station's reading of those bytes gives back every field; for every Variant B
record the packed image has 318 bytes and reads back to the same header fields
and the same 78 feature bit patterns. -/
theorem wire_format_round_trip :
    (sizeofBuzzhivePacket = 16 ∧ sizeofBuzzhivePacketFull = 318) ∧
    (∀ p : HiveSensor.BuzzhivePacket, p.InRange →
      (packetBytes p).length = sizeofBuzzhivePacket ∧
      (readPacket (packetBytes p)).hiveId = p.hiveId ∧
      (readPacket (packetBytes p)).queenStatus = p.queenStatus ∧
      (readPacket (packetBytes p)).anomalyScore = p.anomalyScore ∧
      (readPacket (packetBytes p)).temperature = p.temperature ∧
      (readPacket (packetBytes p)).humidity = p.humidity ∧
      (readPacket (packetBytes p)).batteryMv = p.batteryMv ∧
      (readPacket (packetBytes p)).timestamp = p.timestamp ∧
      (readPacket (packetBytes p)).featureHash = p.featureHash) ∧
    (∀ p : BuzzhivePacketFull, p.InRange →
      (packetFullBytes p).length = sizeofBuzzhivePacketFull ∧
      (readPacketFull (packetFullBytes p)).hiveId = p.hiveId ∧
      (readPacketFull (packetFullBytes p)).temperature = p.temperature ∧
      (readPacketFull (packetFullBytes p)).humidity = p.humidity ∧
      (readPacketFull (packetFullBytes p)).batteryMv = p.batteryMv ∧
      ∀ k, k < 78 →
        (readPacketFull (packetFullBytes p)).mfccFeatures k = p.mfccFeatures k) :=
  ⟨⟨rfl, rfl⟩, fun p h => readPacket_packetBytes p h,
    fun p h => readPacketFull_packetFullBytes p h⟩

/-- Witness of C1: a Variant A record with a negative temperature and a
Variant B record, both in range, survive the round trip. -/
theorem wire_format_round_trip_witness :
    (HiveSensor.BuzzhivePacket.mk 1 3 0 (-250) 55 3700 70000 [1, 2, 3, 255]).InRange ∧
    (readPacket (packetBytes
      (HiveSensor.BuzzhivePacket.mk 1 3 0 (-250) 55 3700 70000 [1, 2, 3, 255]))).temperature
        = -250 ∧
    (BuzzhivePacketFull.mk 1 (-250) 55 3700 (fun k => 1000000 * k)).InRange ∧
    (readPacketFull (packetFullBytes
      (BuzzhivePacketFull.mk 1 (-250) 55 3700 (fun k => 1000000 * k)))).mfccFeatures 77
        = 77000000 := by
  have hA : (HiveSensor.BuzzhivePacket.mk 1 3 0 (-250) 55 3700 70000 [1, 2, 3, 255]).InRange := by
    simp [HiveSensor.BuzzhivePacket.InRange]
  have hB : (BuzzhivePacketFull.mk 1 (-250) 55 3700 (fun k => 1000000 * k)).InRange := by
    refine ⟨by norm_num, ⟨by norm_num, by norm_num⟩, by norm_num, by norm_num, ?_⟩
    intro k hk
    show 1000000 * k < 4294967296
    omega
  exact ⟨hA, (wire_format_round_trip.2.1 _ hA).2.2.2.2.1, hB,
    (wire_format_round_trip.2.2 _ hB).2.2.2.2.2 77 (by norm_num)⟩

/-! ## Base station: dispatcher -/

theorem toUInt_16 : toUInt 32 16 = 16 := by decide

theorem toUInt_318 : toUInt 32 318 = 318 := by decide

/-- The events of `uploadToCloud`: the call itself, then the name lookup and
the request when both connection tests pass. -/
theorem uploadToCloud_events (env : Env) (hiveId queenStatus anomalyScore : Nat)
    (temperature : ℚ) (humidity batteryMv : Nat) :
    (uploadToCloud env hiveId queenStatus anomalyScore temperature humidity batteryMv).2 =
      Event.uploadToCloud hiveId queenStatus anomalyScore temperature humidity batteryMv ::
        (if env.wifiConnected = true ∧ env.wifiStatusConnected = true then
          [Event.nameLookup queenStatus,
           Event.post
            { hive_id := hiveId
              queen_status := queenStatus
              queen_status_name := QUEEN_STATUS_NAMES[queenStatus]?
              anomaly_score := anomalyScore
              temperature := temperature
              humidity := humidity
              battery_mv := batteryMv
              timestamp := env.millis % 2 ^ 32 }]
        else []) := by
  unfold uploadToCloud
  cases h1 : env.wifiConnected <;> cases h2 : env.wifiStatusConnected <;> simp
  all_goals split_ifs <;> rfl

/-- The flag returned by `uploadToCloud`. -/
theorem uploadToCloud_fst (env : Env) (hiveId queenStatus anomalyScore : Nat)
    (temperature : ℚ) (humidity batteryMv : Nat) :
    (uploadToCloud env hiveId queenStatus anomalyScore temperature humidity batteryMv).1 =
      decide ((env.wifiConnected = true ∧ env.wifiStatusConnected = true) ∧
        (env.httpCode = 200 ∨ env.httpCode = 201)) := by
  unfold uploadToCloud
  cases h1 : env.wifiConnected <;> cases h2 : env.wifiStatusConnected <;> simp
  all_goals split_ifs <;> simp_all

/-- The branch of `processPacket` for a packet of `sizeof(BuzzhivePacket)`
bytes. -/
theorem processPacket_simple (MEAN SCALE f32 : Nat → ℚ) (env : Env) (rx : List Nat) :
    processPacket MEAN SCALE f32 env 16 rx =
      Event.nameLookup (readPacket rx).queenStatus ::
        (uploadToCloud env (readPacket rx).hiveId (readPacket rx).queenStatus
          (readPacket rx).anomalyScore (((readPacket rx).temperature : ℚ) / 100.0)
          (readPacket rx).humidity (readPacket rx).batteryMv).2 := by
  simp [processPacket, toUInt_16, sizeofBuzzhivePacket]

/-- The branch of `processPacket` for a packet of `sizeof(BuzzhivePacketFull)`
bytes. -/
theorem processPacket_full (MEAN SCALE f32 : Nat → ℚ) (env : Env) (rx : List Nat) :
    processPacket MEAN SCALE f32 env 318 rx =
      (runInference MEAN SCALE (fun k => f32 ((readPacketFull rx).mfccFeatures k))).2 ++
        (uploadToCloud env (readPacketFull rx).hiveId
          (runInference MEAN SCALE (fun k => f32 ((readPacketFull rx).mfccFeatures k))).1 0
          (((readPacketFull rx).temperature : ℚ) / 100.0)
          (readPacketFull rx).humidity (readPacketFull rx).batteryMv).2 := by
  simp [processPacket, toUInt_318, sizeofBuzzhivePacket, sizeofBuzzhivePacketFull]

/-- The last branch of `processPacket`. -/
theorem processPacket_other (MEAN SCALE f32 : Nat → ℚ) (env : Env) (rx : List Nat) (n : Int)
    (hlo : -2147483648 ≤ n) (hhi : n < 2147483648) (h16 : n ≠ 16) (h318 : n ≠ 318) :
    processPacket MEAN SCALE f32 env n rx = [] := by
  have e1 : toUInt 32 n ≠ 16 := by unfold toUInt; omega
  have e2 : toUInt 32 n ≠ 318 := by unfold toUInt; omega
  simp [processPacket, sizeofBuzzhivePacket, sizeofBuzzhivePacketFull, e1, e2]

/-- C2. Routing by length in `processPacket`.  A packet of 16 bytes (the size
of Variant A) invokes `uploadToCloud` exactly once and `runInference` never; a
packet of 318 bytes (the size of Variant B) invokes `runInference` exactly once
and `uploadToCloud` exactly once; in both cases at most one HTTP request is
sent; for every other `int` length there is no event at all, so neither is
invoked.  The two sizes differ. -/
theorem processPacket_routes_by_length (MEAN SCALE f32 : Nat → ℚ) (env : Env)
    (rx : List Nat) :
    (sizeofBuzzhivePacket = 16 ∧ sizeofBuzzhivePacketFull = 318 ∧
      sizeofBuzzhivePacket ≠ sizeofBuzzhivePacketFull) ∧
    ((processPacket MEAN SCALE f32 env 16 rx).countP Event.isUpload = 1 ∧
     (processPacket MEAN SCALE f32 env 16 rx).countP Event.isInference = 0 ∧
     (processPacket MEAN SCALE f32 env 16 rx).countP Event.isPost ≤ 1) ∧
    ((processPacket MEAN SCALE f32 env 318 rx).countP Event.isInference = 1 ∧
     (processPacket MEAN SCALE f32 env 318 rx).countP Event.isUpload = 1 ∧
     (processPacket MEAN SCALE f32 env 318 rx).countP Event.isPost ≤ 1) ∧
    (∀ n : Int, -2147483648 ≤ n → n < 2147483648 → n ≠ 16 → n ≠ 318 →
      processPacket MEAN SCALE f32 env n rx = [] ∧
      (processPacket MEAN SCALE f32 env n rx).countP Event.isInference = 0 ∧
      (processPacket MEAN SCALE f32 env n rx).countP Event.isUpload = 0 ∧
      (processPacket MEAN SCALE f32 env n rx).countP Event.isPost = 0) := by
  refine ⟨⟨rfl, rfl, by decide⟩, ?_, ?_, ?_⟩
  · rw [processPacket_simple, uploadToCloud_events]
    refine ⟨?_, ?_, ?_⟩ <;> split_ifs <;>
      simp [BaseStation.Event.isUpload, BaseStation.Event.isInference,
        BaseStation.Event.isPost, List.countP_cons]
  · rw [processPacket_full, uploadToCloud_events]
    refine ⟨?_, ?_, ?_⟩ <;> split_ifs <;>
      simp [runInference, BaseStation.Event.isUpload, BaseStation.Event.isInference,
        BaseStation.Event.isPost, List.countP_cons]
  · intro n hlo hhi h16 h318
    rw [processPacket_other MEAN SCALE f32 env rx n hlo hhi h16 h318]
    exact ⟨rfl, rfl, rfl, rfl⟩

/-- Witness of C2: a packet of 20 bytes is dropped. -/
theorem processPacket_routes_by_length_witness :
    (-2147483648 ≤ (20 : Int) ∧ (20 : Int) < 2147483648 ∧ (20 : Int) ≠ 16 ∧ (20 : Int) ≠ 318) ∧
    processPacket (fun _ => 0) (fun _ => 1) (fun _ => 0) ⟨true, true, 0, 200⟩ 20
      (List.replicate 20 7) = [] :=
  ⟨by decide,
    ((processPacket_routes_by_length (fun _ => 0) (fun _ => 1) (fun _ => 0)
      ⟨true, true, 0, 200⟩ (List.replicate 20 7)).2.2.2 20
      (by decide) (by decide) (by decide) (by decide)).1⟩

/-- C7, as stated, fails: with the uplink connected and the HTTP response
`204`, a code of the 2xx class, `uploadToCloud` reports failure. -/
theorem uploadToCloud_rejects_204 :
    (200 ≤ (204 : Int) ∧ (204 : Int) ≤ 299) ∧
    (uploadToCloud ⟨true, true, 0, 204⟩ 1 3 0 21.5 55 3700).1 = false := by
  refine ⟨by decide, ?_⟩
  rw [uploadToCloud_fst]
  simp

/-- C7, amended.  When the uplink is connected, `uploadToCloud` sends exactly
one request and reports success exactly when the HTTP response code is `200`
or `201`, failure for every other code; when the uplink is not connected it
reports failure and sends no request. -/
theorem uploadToCloud_success_iff_200_or_201 (env : Env)
    (hiveId queenStatus anomalyScore : Nat) (temperature : ℚ) (humidity batteryMv : Nat) :
    ((env.wifiConnected = true ∧ env.wifiStatusConnected = true) →
      ((uploadToCloud env hiveId queenStatus anomalyScore temperature humidity batteryMv).1
          = true ↔ (env.httpCode = 200 ∨ env.httpCode = 201)) ∧
      (uploadToCloud env hiveId queenStatus anomalyScore temperature humidity
          batteryMv).2.countP Event.isPost = 1) ∧
    (¬ (env.wifiConnected = true ∧ env.wifiStatusConnected = true) →
      (uploadToCloud env hiveId queenStatus anomalyScore temperature humidity batteryMv).1
          = false ∧
      (uploadToCloud env hiveId queenStatus anomalyScore temperature humidity
          batteryMv).2.countP Event.isPost = 0) := by
  rw [uploadToCloud_fst, uploadToCloud_events]
  constructor
  · intro h
    rw [if_pos h]
    refine ⟨?_, by simp [BaseStation.Event.isPost, List.countP_cons]⟩
    simp [h]
  · intro h
    rw [if_neg h]
    refine ⟨?_, by simp [BaseStation.Event.isPost, List.countP_cons]⟩
    simp [h]

/-- Witness of C7, amended: connected with response `201` succeeds; not
connected fails without a request. -/
theorem uploadToCloud_success_iff_200_or_201_witness :
    (uploadToCloud ⟨true, true, 0, 201⟩ 1 3 0 21.5 55 3700).1 = true ∧
    (uploadToCloud ⟨false, true, 0, 200⟩ 1 3 0 21.5 55 3700).1 = false ∧
    (uploadToCloud ⟨false, true, 0, 200⟩ 1 3 0 21.5 55 3700).2.countP Event.isPost = 0 :=
  ⟨((uploadToCloud_success_iff_200_or_201 ⟨true, true, 0, 201⟩ 1 3 0 21.5 55 3700).1
      ⟨rfl, rfl⟩).1.2 (Or.inr rfl),
    ((uploadToCloud_success_iff_200_or_201 ⟨false, true, 0, 200⟩ 1 3 0 21.5 55 3700).2
      (by simp)).1,
    ((uploadToCloud_success_iff_200_or_201 ⟨false, true, 0, 200⟩ 1 3 0 21.5 55 3700).2
      (by simp)).2⟩

/-- C8. Variant B relay.  For every packet of 318 bytes `processPacket` makes
one call of `uploadToCloud`, whose queen status is the class returned by
`runInference` on the packet's 78 features, whose anomaly score is `0`, whose
hive id, humidity and battery voltage are the packet's fields and whose
temperature is the packet's signed temperature divided by 100; the request
sent when the uplink is connected carries the same values. -/
theorem processPacket_full_relay (MEAN SCALE f32 : Nat → ℚ) (env : Env) (rx : List Nat) :
    (processPacket MEAN SCALE f32 env 318 rx).filter Event.isUpload =
      [Event.uploadToCloud (readPacketFull rx).hiveId
        (runInference MEAN SCALE (fun k => f32 ((readPacketFull rx).mfccFeatures k))).1
        0 (((readPacketFull rx).temperature : ℚ) / 100)
        (readPacketFull rx).humidity (readPacketFull rx).batteryMv] ∧
    (processPacket MEAN SCALE f32 env 318 rx).filter Event.isPost =
      (if env.wifiConnected = true ∧ env.wifiStatusConnected = true then
        [Event.post
          { hive_id := (readPacketFull rx).hiveId
            queen_status :=
              (runInference MEAN SCALE
                (fun k => f32 ((readPacketFull rx).mfccFeatures k))).1
            queen_status_name :=
              QUEEN_STATUS_NAMES[(runInference MEAN SCALE
                (fun k => f32 ((readPacketFull rx).mfccFeatures k))).1]?
            anomaly_score := 0
            temperature := ((readPacketFull rx).temperature : ℚ) / 100
            humidity := (readPacketFull rx).humidity
            battery_mv := (readPacketFull rx).batteryMv
            timestamp := env.millis % 2 ^ 32 }]
      else []) := by
  rw [processPacket_full, uploadToCloud_events]
  constructor <;> split_ifs <;>
    simp [runInference, BaseStation.Event.isUpload, BaseStation.Event.isPost,
      List.filter_cons] <;> norm_num

/-- C9, as stated, fails: a 16-byte packet whose `timestamp` field is `5`,
handled while `millis()` reads `7`, is relayed with timestamp `7`. -/
theorem processPacket_timestamp_not_relayed :
    (readPacket [1, 3, 0, 6, 255, 55, 116, 14, 5, 0, 0, 0, 9, 9, 9, 9]).timestamp = 5 ∧
    (processPacket (fun _ => 0) (fun _ => 1) (fun _ => 0) ⟨true, true, 7, 200⟩ 16
        [1, 3, 0, 6, 255, 55, 116, 14, 5, 0, 0, 0, 9, 9, 9, 9]).filter Event.isPost =
      [Event.post
        { hive_id := 1
          queen_status := 3
          queen_status_name := some "Queen_Accepted"
          anomaly_score := 0
          temperature := -5 / 2
          humidity := 55
          battery_mv := 3700
          timestamp := 7 }] := by
  constructor
  · decide
  · rw [processPacket_simple, uploadToCloud_events]
    simp [BaseStation.Event.isPost, List.filter_cons, readPacket, fieldAt, bytesAt, leValue,
      toSInt, QUEEN_STATUS_NAMES, List.range, List.range.loop]
    norm_num

/-- C9, amended.  For every packet of 16 bytes `processPacket` makes one call
of `uploadToCloud` with the packet's hive id, queen status, anomaly score,
humidity and battery voltage and with the packet's signed temperature divided
by 100; the request sent when the uplink is connected carries these values,
and its timestamp is the base station's own `millis()` reading, not the
packet's `timestamp` field. -/
theorem processPacket_simple_relay (MEAN SCALE f32 : Nat → ℚ) (env : Env) (rx : List Nat) :
    (processPacket MEAN SCALE f32 env 16 rx).filter Event.isUpload =
      [Event.uploadToCloud (readPacket rx).hiveId (readPacket rx).queenStatus
        (readPacket rx).anomalyScore (((readPacket rx).temperature : ℚ) / 100)
        (readPacket rx).humidity (readPacket rx).batteryMv] ∧
    (processPacket MEAN SCALE f32 env 16 rx).filter Event.isPost =
      (if env.wifiConnected = true ∧ env.wifiStatusConnected = true then
        [Event.post
          { hive_id := (readPacket rx).hiveId
            queen_status := (readPacket rx).queenStatus
            queen_status_name := QUEEN_STATUS_NAMES[(readPacket rx).queenStatus]?
            anomaly_score := (readPacket rx).anomalyScore
            temperature := ((readPacket rx).temperature : ℚ) / 100
            humidity := (readPacket rx).humidity
            battery_mv := (readPacket rx).batteryMv
            timestamp := env.millis % 2 ^ 32 }]
      else []) := by
  rw [processPacket_simple, uploadToCloud_events]
  constructor <;> split_ifs <;>
    simp [BaseStation.Event.isUpload, BaseStation.Event.isPost, List.filter_cons] <;> norm_num

/-! ## Base station: classifier -/

/-- Cell `j` of the output of `normalizeFeatures`. -/
theorem normalizeFeatures_apply (MEAN SCALE raw normalized : Nat → ℚ) (j : Nat) :
    normalizeFeatures MEAN SCALE raw normalized j
      = if j < 78 then (raw j - MEAN j) / SCALE j else normalized j := by
  unfold normalizeFeatures NUM_FEATURES
  rw [forLoop_store (fun i => (raw i - MEAN i) / SCALE i) 78 0 normalized j]
  simp

/-- C5. `normalizeFeatures`: when every `SCALE[i]` is non-zero, each of the
cells `0..77` of the output is `(raw[i] - MEAN[i]) / SCALE[i]` (the value whose
product with `SCALE[i]` is `raw[i] - MEAN[i]`); no cell from `78` on is
written; and the 78 results do not depend on any cell of `raw`, `MEAN`, `SCALE`
outside `0..77` nor on the previous content of the output array, so no index
outside `0..77` is read. -/
theorem normalizeFeatures_spec (MEAN SCALE raw normalized : Nat → ℚ)
    (hS : ∀ i, i < 78 → SCALE i ≠ 0) :
    (∀ i, i < 78 →
        normalizeFeatures MEAN SCALE raw normalized i = (raw i - MEAN i) / SCALE i ∧
        normalizeFeatures MEAN SCALE raw normalized i * SCALE i = raw i - MEAN i) ∧
    (∀ j, 78 ≤ j → normalizeFeatures MEAN SCALE raw normalized j = normalized j) ∧
    (∀ MEAN2 SCALE2 raw2 normalized2 : Nat → ℚ,
        (∀ i, i < 78 → MEAN2 i = MEAN i ∧ SCALE2 i = SCALE i ∧ raw2 i = raw i) →
        ∀ i, i < 78 → normalizeFeatures MEAN2 SCALE2 raw2 normalized2 i
            = normalizeFeatures MEAN SCALE raw normalized i) := by
  refine ⟨?_, ?_, ?_⟩
  · intro i hi
    rw [normalizeFeatures_apply, if_pos hi]
    exact ⟨rfl, div_mul_cancel₀ _ (hS i hi)⟩
  · intro j hj
    rw [normalizeFeatures_apply, if_neg (by omega)]
  · intro M2 S2 r2 nz2 h i hi
    obtain ⟨h1, h2, h3⟩ := h i hi
    rw [normalizeFeatures_apply, normalizeFeatures_apply, if_pos hi, if_pos hi, h1, h2, h3]

/-- Witness of C5: with mean `1` and scale `2` everywhere, raw value `5` in
cell `5` is normalised to `2`, and cell `80` keeps its previous content. -/
theorem normalizeFeatures_spec_witness :
    (∀ i, i < 78 → (fun _ : Nat => (2 : ℚ)) i ≠ 0) ∧
    normalizeFeatures (fun _ => 1) (fun _ => 2) (fun i => (i : ℚ)) (fun _ => 9) 5 = 2 ∧
    normalizeFeatures (fun _ => 1) (fun _ => 2) (fun i => (i : ℚ)) (fun _ => 9) 80 = 9 := by
  have h := normalizeFeatures_spec (fun _ => 1) (fun _ => 2) (fun i => (i : ℚ)) (fun _ => 9)
    (fun i _ => by norm_num)
  refine ⟨fun i _ => by norm_num, ?_, h.2.1 80 (by norm_num)⟩
  rw [(h.1 5 (by norm_num)).1]
  norm_num

/-- The class chosen by the selection loop of `runInference`, unrolled. -/
theorem findBestClass_eq (s : Nat → ℚ) :
    (findBestClass s).1 =
      if s 3 > (if s 2 > (if s 1 > s 0 then s 1 else s 0) then s 2
                else (if s 1 > s 0 then s 1 else s 0)) then 3
      else if s 2 > (if s 1 > s 0 then s 1 else s 0) then 2
      else if s 1 > s 0 then 1 else 0 := by
  unfold findBestClass
  simp only [forLoop]
  split_ifs <;> simp_all

/-- The selection loop returns the first index of a maximal score. -/
theorem findBestClass_spec (s : Nat → ℚ) :
    (findBestClass s).1 < 4 ∧
    (∀ j, j < 4 → s j ≤ s (findBestClass s).1) ∧
    (∀ i, i < 4 → (∀ j, j < 4 → s j ≤ s i) → (findBestClass s).1 ≤ i) := by
  rw [findBestClass_eq]
  have h4 : ∀ (P : Nat → Prop), (∀ j, j < 4 → P j) ↔ (P 0 ∧ P 1 ∧ P 2 ∧ P 3) := by
    intro P
    constructor
    · intro h; exact ⟨h 0 (by omega), h 1 (by omega), h 2 (by omega), h 3 (by omega)⟩
    · rintro ⟨h0, h1, h2, h3⟩ j hj
      interval_cases j <;> assumption
  simp only [h4]
  split_ifs <;> refine ⟨by norm_num, ?_, ?_⟩
  all_goals
    refine ⟨?_, ?_, ?_, ?_⟩ <;>
      first
        | linarith
        | (rintro ⟨h0, h1, h2, h3⟩; first | omega | (exfalso; linarith))

/-- The scores of a normalised vector that fires rules 1 (low branch), 2 and
4. -/
theorem xgboostPredict_tie (features scores0 : Nat → ℚ)
    (h0 : features 0 < -0.5) (h39 : features 39 > 1.0) (h13 : features 13 > 0.5) :
    xgboostPredict features scores0 0 ≤ 0.7 ∧
    xgboostPredict features scores0 1 = 2.0 ∧
    xgboostPredict features scores0 2 = 2.0 ∧
    xgboostPredict features scores0 3 = 0.3 := by
  have a1 : ¬ features 0 > 0.5 := by norm_num at h0 ⊢; linarith
  have a2 : ¬ features 0 > 0 := by norm_num at h0 ⊢; linarith
  simp only [xgboostPredict, if_neg a1, if_pos h0, if_pos h39, if_pos h13, a2, and_false,
    if_false]
  by_cases h : features 1 < -0.3
  · simp only [if_pos h, addTo, store_apply]
    norm_num
  · simp only [if_neg h, addTo, store_apply]
    norm_num

/-- C4. Tie-break of the class selection in `runInference`.  For every four
scores the selected class is an index in `0..3` whose score is at least every
other score, and it is the smallest such index: the strictly highest score
wins and on an exact tie the lowest class id wins.  `runInference` returns the
class so selected from the scores of `xgboostPredict` on the normalised
vector.  When the normalised vector has `feature[0] < -0.5`,
`feature[39] > 1.0` and `feature[13] > 0.5`, Queenless and Queen_Hatched both
score `2.0` and the result is class `1`. -/
theorem runInference_tie_break :
    (∀ scores : Nat → ℚ,
      (findBestClass scores).1 < 4 ∧
      (∀ j, j < 4 → scores j ≤ scores (findBestClass scores).1) ∧
      (∀ i, i < 4 → (∀ j, j < 4 → scores j ≤ scores i) → (findBestClass scores).1 ≤ i)) ∧
    (∀ MEAN SCALE raw : Nat → ℚ,
      (runInference MEAN SCALE raw).1 =
        (findBestClass
          (xgboostPredict (normalizeFeatures MEAN SCALE raw (fun _ => 0)) (fun _ => 0))).1) ∧
    (∀ MEAN SCALE raw : Nat → ℚ,
      normalizeFeatures MEAN SCALE raw (fun _ => 0) 0 < -0.5 →
      normalizeFeatures MEAN SCALE raw (fun _ => 0) 39 > 1.0 →
      normalizeFeatures MEAN SCALE raw (fun _ => 0) 13 > 0.5 →
      xgboostPredict (normalizeFeatures MEAN SCALE raw (fun _ => 0)) (fun _ => 0) 1 = 2.0 ∧
      xgboostPredict (normalizeFeatures MEAN SCALE raw (fun _ => 0)) (fun _ => 0) 2 = 2.0 ∧
      (runInference MEAN SCALE raw).1 = 1) := by
  refine ⟨findBestClass_spec, fun _ _ _ => rfl, ?_⟩
  intro MEAN SCALE raw h0 h39 h13
  obtain ⟨s0, s1, s2, s3⟩ :=
    xgboostPredict_tie (normalizeFeatures MEAN SCALE raw (fun _ => 0)) (fun _ => 0) h0 h39 h13
  refine ⟨s1, s2, ?_⟩
  show (findBestClass
    (xgboostPredict (normalizeFeatures MEAN SCALE raw (fun _ => 0)) (fun _ => 0))).1 = 1
  rw [findBestClass_eq, s1, s2, s3]
  have e1 : (2.0 : ℚ) > xgboostPredict (normalizeFeatures MEAN SCALE raw (fun _ => 0))
      (fun _ => 0) 0 := by
    norm_num at s0 ⊢; linarith
  simp only [if_pos e1]
  norm_num

/-- Witness of C4: with the identity scaler, the raw vector with `-1` in cell
`0`, `2` in cell `39`, `1` in cell `13` and `0` elsewhere is classified as
class `1`. -/
theorem runInference_tie_break_witness :
    (runInference (fun _ => 0) (fun _ => 1)
      (fun i => if i = 0 then -1 else if i = 39 then 2 else if i = 13 then 1 else 0)).1 = 1 :=
  (runInference_tie_break.2.2 (fun _ => 0) (fun _ => 1)
    (fun i => if i = 0 then -1 else if i = 39 then 2 else if i = 13 then 1 else 0)
    (by rw [normalizeFeatures_apply]; norm_num)
    (by rw [normalizeFeatures_apply]; norm_num)
    (by rw [normalizeFeatures_apply]; norm_num)).2.2

/-! ## Hive sensor: duty cycle -/

/-- C3 (code defect). `getSleepDuration` compares the temperature with the
literal `20.0`, not with the configured `WINTER_TEMP_THRESHOLD` of `15.0`: it
returns the winter interval of 7,200,000 ms exactly when the reading is below
`20.0` and the active interval of 900,000 ms otherwise.  At the reading
`15.0`, which is not below the configured threshold, it returns the winter
interval; the readings `10.0` and `25.0` select winter and active. -/
theorem getSleepDuration_uses_literal_20 :
    (∀ t : ℚ, getSleepDuration t = if t < 20 then 7200000 else 900000) ∧
    WINTER_TEMP_THRESHOLD = 15 ∧
    ¬ ((15.0 : ℚ) < WINTER_TEMP_THRESHOLD) ∧
    getSleepDuration 15.0 = 7200000 ∧
    getSleepDuration 15.0 ≠ ACTIVE_SEASON_INTERVAL_MS ∧
    getSleepDuration 10.0 = WINTER_INTERVAL_MS ∧
    getSleepDuration 25.0 = ACTIVE_SEASON_INTERVAL_MS := by
  have h : ∀ t : ℚ, getSleepDuration t = if t < 20 then 7200000 else 900000 := by
    intro t
    unfold getSleepDuration isWinterMode WINTER_INTERVAL_MS ACTIVE_SEASON_INTERVAL_MS
    by_cases ht : t < 20
    · have ht2 : t < 20.0 := by norm_num; exact ht
      simp [ht, ht2]
    · have ht2 : ¬ t < 20.0 := by norm_num; linarith
      simp [ht, ht2]
  refine ⟨h, ?_, ?_, ?_, ?_, ?_, ?_⟩
  · unfold WINTER_TEMP_THRESHOLD; norm_num
  · unfold WINTER_TEMP_THRESHOLD; norm_num
  · rw [h]; norm_num
  · rw [h]; unfold ACTIVE_SEASON_INTERVAL_MS; norm_num
  · rw [h]; unfold WINTER_INTERVAL_MS; norm_num
  · rw [h]; unfold ACTIVE_SEASON_INTERVAL_MS; norm_num

/-- A failed recording has seen the timeout test succeed at some iteration. -/
theorem recordLoop_false_elapsed (c : Cycle) (startTime : Nat) :
    ∀ (fuel k totalSamples : Nat),
      recordLoop c startTime fuel k totalSamples = some false →
      ∃ j, k ≤ j ∧ j < k + fuel ∧
        toUInt 32 ((c.millis (j + 1) : Int) - (startTime : Int)) > 12000 := by
  intro fuel
  induction fuel with
  | zero => intro k t h; simp [recordLoop] at h
  | succ fuel ih =>
    intro k t h
    unfold recordLoop at h
    split_ifs at h with h1 h2
    · exact ⟨k, le_refl k, by omega, by simpa [RECORD_DURATION_SEC] using h2⟩
    · obtain ⟨j, hj1, hj2, hj3⟩ := ih _ _ h
      exact ⟨j, by omega, by omega, hj3⟩
    · simp at h

/-- More fuel does not change the outcome of a recording that has finished. -/
theorem recordLoop_fuel_mono (c : Cycle) (startTime : Nat) (b : Bool) :
    ∀ (fuel k totalSamples : Nat),
      recordLoop c startTime fuel k totalSamples = some b →
      ∀ extra, recordLoop c startTime (fuel + extra) k totalSamples = some b := by
  intro fuel
  induction fuel with
  | zero => intro k t h; simp [recordLoop] at h
  | succ fuel ih =>
    intro k t h extra
    rw [Nat.add_right_comm]
    unfold recordLoop at h ⊢
    split_ifs at h ⊢ with h1 h2
    · exact h
    · exact ih _ _ h extra
    · exact h

/-- C10. Recording timeout handling.  In every cycle in which `recordAudio`
reports failure, which happens only after one of its timeout tests has seen
more than `(10 + 2) * 1000 = 12,000` ms elapsed, `loop` finishes the cycle
with the events of `enterDeepSleep(60 * 1000)` alone: the peripherals are shut
down and the wake-up timer is set to 60,000 ms (60,000,000 µs); there is no
feature extraction and no transmission, and `mfccFeatures` is left as it
was.  The failure does not depend on the iteration budget of the model. -/
theorem loop_recording_timeout (L : Libm) (floatBits : ℚ → Nat) (c : Cycle) (mfccFeatures : Nat → ℚ)
    (fuel : Nat) (h : recordAudio c fuel = some false) :
    (loop L floatBits c mfccFeatures fuel).map CycleResult.events
      = some [HiveSensor.Event.i2sDriverUninstall, HiveSensor.Event.loraSleep,
          HiveSensor.Event.sleepTimerWakeup (60000 * 1000), HiveSensor.Event.deepSleepStart] ∧
    (loop L floatBits c mfccFeatures fuel).map
        (fun r => r.events.countP HiveSensor.Event.isExtract) = some 0 ∧
    (loop L floatBits c mfccFeatures fuel).map
        (fun r => r.events.countP HiveSensor.Event.isTransmit) = some 0 ∧
    (loop L floatBits c mfccFeatures fuel).map CycleResult.mfccFeatures = some mfccFeatures ∧
    (∃ j, j < fuel ∧
      toUInt 32 ((c.millis (j + 1) : Int) - ((c.millis 0 % 2 ^ 32 : Nat) : Int))
        > (10 + 2) * 1000) ∧
    (∀ extra, recordAudio c (fuel + extra) = some false) := by
  refine ⟨?_, ?_, ?_, ?_, ?_, recordLoop_fuel_mono c _ false fuel 0 0 h⟩
  · simp [loop, h, enterDeepSleep]
  · simp [loop, h, enterDeepSleep, HiveSensor.Event.isExtract, List.countP_cons]
  · simp [loop, h, enterDeepSleep, HiveSensor.Event.isTransmit, List.countP_cons]
  · simp [loop, h]
  · obtain ⟨j, _, hj2, hj3⟩ := recordLoop_false_elapsed c _ fuel 0 0 h
    exact ⟨j, by omega, hj3⟩

/-- Witness of C10: the driver delivers nothing and the clock reads 12,001 ms
at the first timeout test. -/
theorem loop_recording_timeout_witness :
    recordAudio ⟨fun _ => 0, fun k => if k = 0 then 0 else 12001, fun _ => 0, 21.5, 55, 1850,
      5000, 21.5⟩ 1 = some false ∧
    (loop ⟨3, fun _ => 1, fun x => x, fun x => x, fun x _ => x, fun x => x⟩ (fun _ => 0)
      ⟨fun _ => 0, fun k => if k = 0 then 0 else 12001, fun _ => 0, 21.5, 55, 1850,
        5000, 21.5⟩ (fun _ => 0) 1).map CycleResult.events
      = some [HiveSensor.Event.i2sDriverUninstall, HiveSensor.Event.loraSleep,
          HiveSensor.Event.sleepTimerWakeup (60000 * 1000),
          HiveSensor.Event.deepSleepStart] :=
  ⟨by decide,
    (loop_recording_timeout ⟨3, fun _ => 1, fun x => x, fun x => x, fun x _ => x, fun x => x⟩
      (fun _ => 0)
      ⟨fun _ => 0, fun k => if k = 0 then 0 else 12001, fun _ => 0, 21.5, 55, 1850,
        5000, 21.5⟩ (fun _ => 0) 1 (by decide)).1⟩

/-! ## Hive sensor: feature extraction -/

/-- A loop of `features[idx++] = g i features` whose values read only cells
below `b`, a bound not above the cursor. -/
theorem forLoop_emit (g : Nat → (Nat → ℚ) → ℚ) (b hi : Nat)
    (hg : ∀ i, i < hi → ∀ a a2 : Nat → ℚ, (∀ j, j < b → a j = a2 j) → g i a = g i a2)
    (n : Nat) :
    ∀ (lo : Nat) (s : Out), lo + n ≤ hi → b ≤ s.idx →
      (forLoop lo n (fun i s => s.emit (g i s.features)) s).idx = s.idx + n ∧
      (forLoop lo n (fun i s => s.emit (g i s.features)) s).written
        = s.written ++ List.range' s.idx n ∧
      ∀ j, (forLoop lo n (fun i s => s.emit (g i s.features)) s).features j
        = if s.idx ≤ j ∧ j < s.idx + n then g (lo + (j - s.idx)) s.features
          else s.features j := by
  induction n with
  | zero =>
    intro lo s _ _
    refine ⟨rfl, by simp [forLoop], ?_⟩
    intro j
    have : ¬ (s.idx ≤ j ∧ j < s.idx + 0) := by omega
    rw [if_neg this]
    rfl
  | succ n ih =>
    intro lo s hlo hb
    rw [forLoop_succ]
    have hidx : (s.emit (g lo s.features)).idx = s.idx + 1 := rfl
    obtain ⟨h1, h2, h3⟩ := ih (lo + 1) (s.emit (g lo s.features)) (by omega)
      (by rw [hidx]; omega)
    have hagree : ∀ i, i < hi → g i (s.emit (g lo s.features)).features = g i s.features := by
      intro i hi2
      apply hg i hi2
      intro j hj
      show store s.features s.idx _ j = s.features j
      rw [store_apply, if_neg (by omega)]
    refine ⟨by rw [h1, hidx]; omega, ?_, ?_⟩
    · rw [h2, hidx]
      show (s.written ++ [s.idx]) ++ List.range' (s.idx + 1) n = _
      rw [List.append_assoc, List.range'_succ]
      rfl
    · intro j
      rw [h3, hidx]
      by_cases c1 : s.idx + 1 ≤ j ∧ j < s.idx + 1 + n
      · have c2 : s.idx ≤ j ∧ j < s.idx + (n + 1) := by omega
        rw [if_pos c1, if_pos c2, hagree _ (by omega)]
        congr 1
        omega
      · rw [if_neg c1]
        show store s.features s.idx _ j = _
        rw [store_apply]
        by_cases c3 : j = s.idx
        · have c2 : s.idx ≤ j ∧ j < s.idx + (n + 1) := by omega
          rw [if_pos c3, if_pos c2, c3]
          simp
        · have c2 : ¬ (s.idx ≤ j ∧ j < s.idx + (n + 1)) := by omega
          rw [if_neg c3, if_neg c2]

/-- A "mean" loop writes the 13 across-frame means at the cursor. -/
theorem meanLoop_spec (F : Nat) (tbl : Nat → Nat → ℚ) (s : Out) :
    (meanLoop F tbl s).idx = s.idx + 13 ∧
    (meanLoop F tbl s).written = s.written ++ List.range' s.idx 13 ∧
    ∀ j, (meanLoop F tbl s).features j
      = if s.idx ≤ j ∧ j < s.idx + 13 then acrossFrameMean F tbl (j - s.idx)
        else s.features j := by
  have h := forLoop_emit (fun i _ => acrossFrameMean F tbl i) 0 13
    (fun _ _ _ _ _ => rfl) 13 0 s (by omega) (by omega)
  have e : meanLoop F tbl s
      = forLoop 0 13 (fun i s => s.emit ((fun i _ => acrossFrameMean F tbl i) i s.features)) s := by
    unfold meanLoop N_MFCC acrossFrameMean
    congr 1
    funext i s
    simp only [forLoop_sum (fun f => tbl f i) F 0 0, Nat.zero_add, zero_add]
  rw [e]
  simpa using h

/-- A "std" loop writes, at the cursor, the 13 root mean squared deviations
from the means it reads back at `base`. -/
theorem stdLoop_spec (L : Libm) (F : Nat) (tbl : Nat → Nat → ℚ) (base : Nat) (s : Out)
    (hb : base + 13 ≤ s.idx) :
    (stdLoop L F tbl base s).idx = s.idx + 13 ∧
    (stdLoop L F tbl base s).written = s.written ++ List.range' s.idx 13 ∧
    ∀ j, (stdLoop L F tbl base s).features j
      = if s.idx ≤ j ∧ j < s.idx + 13 then
          L.sqrt ((∑ f in Finset.range F,
            (tbl f (j - s.idx) - s.features (base + (j - s.idx))) ^ 2) / (F : ℚ))
        else s.features j := by
  have h := forLoop_emit
    (fun i a => L.sqrt ((∑ f in Finset.range F, (tbl f i - a (base + i)) ^ 2) / (F : ℚ)))
    (base + 13) 13
    (fun i hi a a2 hag => by
      show L.sqrt _ = L.sqrt _
      rw [hag (base + i) (by omega)])
    13 0 s (by omega) hb
  have e : stdLoop L F tbl base s
      = forLoop 0 13 (fun i s => s.emit ((fun i a => L.sqrt ((∑ f in Finset.range F,
          (tbl f i - a (base + i)) ^ 2) / (F : ℚ))) i s.features)) s := by
    unfold stdLoop N_MFCC
    congr 1
    funext i s
    simp only [forLoop_sum (fun f => (tbl f i - s.features (base + i))
      * (tbl f i - s.features (base + i))) F 0 0, Nat.zero_add, zero_add, sq]
  rw [e]
  simpa using h

/-- Between 1 and 100 frames are processed, whatever the buffer length. -/
theorem actualFrames_bounds (numSamples : Nat) :
    1 ≤ actualFrames numSamples ∧ actualFrames numSamples ≤ 100 := by
  unfold actualFrames numFrames
  simp only []
  split_ifs <;> omega

/-- The cells of the output of `extractMFCC`, its cursor and its write log. -/
theorem extractMFCC_cells (L : Libm) (samples : Nat → Int) (numSamples : Nat)
    (sampleRate : Int) (features : Nat → ℚ) :
    let F := actualFrames numSamples
    let M := mfccFramesTable L samples numSamples sampleRate
    let D := deltaTable F M
    let D2 := deltaTable F D
    let out := extractMFCC L samples numSamples sampleRate features
    (1 ≤ F ∧ F ≤ 100) ∧
    out.written = List.range 78 ∧
    out.idx = N_FEATURES ∧
    (∀ j, 78 ≤ j → out.features j = features j) ∧
    (∀ i, i < 13 →
      out.features i = acrossFrameMean F M i ∧
      out.features (13 + i) = acrossFrameMean F D i ∧
      out.features (26 + i) = acrossFrameMean F D2 i ∧
      out.features (39 + i) = acrossFrameStd L F M i ∧
      out.features (52 + i) = acrossFrameStd L F D i ∧
      out.features (65 + i) = acrossFrameStd L F D2 i) := by
  intro F M D D2 out
  have hout : out = stdLoop L F D2 (2 * N_MFCC) (stdLoop L F D N_MFCC (stdLoop L F M 0
      (meanLoop F D2 (meanLoop F D (meanLoop F M ⟨features, 0, []⟩))))) := rfl
  obtain ⟨i1, w1, f1⟩ := meanLoop_spec F M ⟨features, 0, []⟩
  generalize meanLoop F M ⟨features, 0, []⟩ = s1 at hout i1 w1 f1
  obtain ⟨i2, w2, f2⟩ := meanLoop_spec F D s1
  generalize meanLoop F D s1 = s2 at hout i2 w2 f2
  obtain ⟨i3, w3, f3⟩ := meanLoop_spec F D2 s2
  generalize meanLoop F D2 s2 = s3 at hout i3 w3 f3
  simp only [] at i1 w1 f1
  obtain ⟨i4, w4, f4⟩ := stdLoop_spec L F M 0 s3 (by omega)
  generalize stdLoop L F M 0 s3 = s4 at hout i4 w4 f4
  obtain ⟨i5, w5, f5⟩ := stdLoop_spec L F D N_MFCC s4 (by unfold N_MFCC; omega)
  generalize stdLoop L F D N_MFCC s4 = s5 at hout i5 w5 f5
  obtain ⟨i6, w6, f6⟩ := stdLoop_spec L F D2 (2 * N_MFCC) s5 (by unfold N_MFCC; omega)
  rw [← hout] at i6 w6 f6
  have e2 : s2.idx = 26 := by omega
  have e3 : s3.idx = 39 := by omega
  have e4 : s4.idx = 52 := by omega
  have e5 : s5.idx = 65 := by omega
  rw [e5] at i6 w6 f6
  rw [e4] at i5 w5 f5
  rw [e3] at i4 w4 f4
  rw [e2] at i3 w3 f3
  rw [i1] at i2 w2 f2
  simp only [Nat.zero_add, zero_add] at i1 w1 f1 i2 w2 f2
  have g1 : ∀ j, j < 13 → s3.features j = acrossFrameMean F M j := by
    intro j hj
    rw [f3, if_neg (by omega), f2, if_neg (by omega), f1, if_pos (by omega)]
    rfl
  have g2 : ∀ j, j < 13 → s4.features (13 + j) = acrossFrameMean F D j := by
    intro j hj
    rw [f4, if_neg (by omega), f3, if_neg (by omega), f2, if_pos (by omega),
      Nat.add_sub_cancel_left]
  have g3 : ∀ j, j < 13 → s5.features (26 + j) = acrossFrameMean F D2 j := by
    intro j hj
    rw [f5, if_neg (by omega), f4, if_neg (by omega), f3, if_pos (by omega),
      Nat.add_sub_cancel_left]
  refine ⟨actualFrames_bounds numSamples, ?_, ?_, ?_, ?_⟩
  · rw [w6, w5, w4, w3, w2, w1]
    decide
  · rw [i6]; rfl
  · intro j hj
    rw [f6, if_neg (by omega), f5, if_neg (by omega), f4, if_neg (by omega),
      f3, if_neg (by omega), f2, if_neg (by omega), f1, if_neg (by omega)]
  · intro i hi
    refine ⟨?_, ?_, ?_, ?_, ?_, ?_⟩
    · rw [f6, if_neg (by omega), f5, if_neg (by omega), f4, if_neg (by omega)]
      exact g1 i hi
    · rw [f6, if_neg (by omega), f5, if_neg (by omega)]
      exact g2 i hi
    · rw [f6, if_neg (by omega)]
      exact g3 i hi
    · rw [f6, if_neg (by omega), f5, if_neg (by omega), f4, if_pos (by omega),
        Nat.add_sub_cancel_left, Nat.zero_add, g1 i hi]
      rfl
    · rw [f6, if_neg (by omega), f5, if_pos (by omega), Nat.add_sub_cancel_left]
      show L.sqrt ((∑ f in Finset.range F, (D f i - s4.features (13 + i)) ^ 2) / (F : ℚ)) = _
      rw [g2 i hi]
      rfl
    · rw [f6, if_pos (by omega), Nat.add_sub_cancel_left]
      show L.sqrt ((∑ f in Finset.range F, (D2 f i - s5.features (26 + i)) ^ 2) / (F : ℚ)) = _
      rw [g3 i hi]
      rfl

/-- C6. Layout of the feature vector.  For every input (at least one frame is
always processed, at most 100), `extractMFCC` writes exactly the cells
`0..77`, each once and in ascending order, and leaves every other cell alone;
for `i = 0..12`, cell `i` is the across-frame mean of MFCC `i`, cell `13 + i`
the mean of delta `i`, cell `26 + i` the mean of delta-delta `i`, cell
`39 + i` the across-frame population standard deviation of MFCC `i`, cell
`52 + i` that of delta `i` and cell `65 + i` that of delta-delta `i`. -/
theorem extractMFCC_layout (L : Libm) (samples : Nat → Int) (numSamples : Nat)
    (sampleRate : Int) (features : Nat → ℚ) :
    let F := actualFrames numSamples
    let M := mfccFramesTable L samples numSamples sampleRate
    let D := deltaTable F M
    let D2 := deltaTable F D
    let out := extractMFCC L samples numSamples sampleRate features
    (1 ≤ F ∧ F ≤ 100) ∧
    out.written = List.range 78 ∧
    out.idx = N_FEATURES ∧
    (∀ j, 78 ≤ j → out.features j = features j) ∧
    (∀ i, i < 13 →
      out.features i = acrossFrameMean F M i ∧
      out.features (13 + i) = acrossFrameMean F D i ∧
      out.features (26 + i) = acrossFrameMean F D2 i ∧
      out.features (39 + i) = acrossFrameStd L F M i ∧
      out.features (52 + i) = acrossFrameStd L F D i ∧
      out.features (65 + i) = acrossFrameStd L F D2 i) :=
  extractMFCC_cells L samples numSamples sampleRate features

/-- Witness of C6: on a silent buffer of one frame, cell `80` of the output
array keeps its content and cell `42` is the standard deviation of MFCC 3. -/
theorem extractMFCC_layout_witness :
    (extractMFCC ⟨3, fun _ => 1, fun x => x, fun x => x, fun x _ => x, fun x => x⟩
      (fun _ => 0) 2048 22050 (fun _ => 7)).features 80 = 7 ∧
    (extractMFCC ⟨3, fun _ => 1, fun x => x, fun x => x, fun x _ => x, fun x => x⟩
      (fun _ => 0) 2048 22050 (fun _ => 7)).features (39 + 3)
      = acrossFrameStd ⟨3, fun _ => 1, fun x => x, fun x => x, fun x _ => x, fun x => x⟩
          (actualFrames 2048)
          (mfccFramesTable ⟨3, fun _ => 1, fun x => x, fun x => x, fun x _ => x, fun x => x⟩
            (fun _ => 0) 2048 22050) 3 :=
  ⟨(extractMFCC_layout ⟨3, fun _ => 1, fun x => x, fun x => x, fun x _ => x, fun x => x⟩
      (fun _ => 0) 2048 22050 (fun _ => 7)).2.2.2.1 80 (by norm_num),
    ((extractMFCC_layout ⟨3, fun _ => 1, fun x => x, fun x => x, fun x _ => x, fun x => x⟩
      (fun _ => 0) 2048 22050 (fun _ => 7)).2.2.2.2 3 (by norm_num)).2.2.2.1⟩

/-! ## Hive sensor: frames, tables and the samples they read -/

/-- Two loop bodies that agree on the indices of the range give the same loop. -/
theorem forLoop_congr {σ : Type} (n : Nat) :
    ∀ (lo : Nat) (body body2 : Nat → σ → σ) (s : σ),
      (∀ i, lo ≤ i → i < lo + n → ∀ t, body i t = body2 i t) →
      forLoop lo n body s = forLoop lo n body2 s := by
  induction n with
  | zero => intro lo body body2 s _; rfl
  | succ n ih =>
    intro lo body body2 s h
    rw [forLoop_succ, forLoop_succ, h lo (le_refl lo) (by omega) s]
    exact ih (lo + 1) body body2 _ (fun i h1 h2 t => h i (by omega) (by omega) t)

/-- A property kept by every iteration holds after the loop. -/
theorem forLoop_invariant {σ : Type} (P : σ → Prop) (n : Nat) :
    ∀ (lo : Nat) (body : Nat → σ → σ) (s : σ), P s →
      (∀ i, lo ≤ i → i < lo + n → ∀ t, P t → P (body i t)) →
      P (forLoop lo n body s) := by
  induction n with
  | zero => intro lo body s hs _; exact hs
  | succ n ih =>
    intro lo body s hs h
    rw [forLoop_succ]
    exact ih (lo + 1) body _ (h lo (le_refl lo) (by omega) s hs)
      (fun i h1 h2 t ht => h i (by omega) (by omega) t ht)

/-- Cell `[g][j]` of a table after a store. -/
theorem store2_apply (a : Nat → Nat → ℚ) (f i g j : Nat) (v : ℚ) :
    store2 a f i v g j = if g = f ∧ j = i then v else a g j := rfl

/-- A loop that fills row `f` of a table. -/
theorem forLoop_store2_row (f : Nat) (g : Nat → ℚ) (n : Nat) :
    ∀ (lo : Nat) (tbl : Nat → Nat → ℚ) (r j : Nat),
      forLoop lo n (fun i tbl => store2 tbl f i (g i)) tbl r j
        = if r = f ∧ lo ≤ j ∧ j < lo + n then g j else tbl r j := by
  induction n with
  | zero =>
    intro lo tbl r j
    have : ¬ (r = f ∧ lo ≤ j ∧ j < lo + 0) := by omega
    rw [if_neg this]
    rfl
  | succ n ih =>
    intro lo tbl r j
    rw [forLoop_succ, ih, store2_apply]
    by_cases h1 : r = f ∧ lo + 1 ≤ j ∧ j < lo + 1 + n
    · have h2 : r = f ∧ lo ≤ j ∧ j < lo + (n + 1) := by omega
      rw [if_pos h1, if_pos h2]
    · rw [if_neg h1]
      by_cases h3 : r = f ∧ j = lo
      · have h2 : r = f ∧ lo ≤ j ∧ j < lo + (n + 1) := by omega
        rw [if_pos h3, if_pos h2, h3.2]
      · have h2 : ¬ (r = f ∧ lo ≤ j ∧ j < lo + (n + 1)) := by omega
        rw [if_neg h3, if_neg h2]

/-- Two nested loops that fill the rows `lo .. lo + n - 1` of a table. -/
theorem forLoop_table (g : Nat → Nat → ℚ) (m n : Nat) :
    ∀ (lo : Nat) (tbl : Nat → Nat → ℚ) (r j : Nat),
      forLoop lo n (fun f tbl => forLoop 0 m (fun i tbl => store2 tbl f i (g f i)) tbl) tbl r j
        = if (lo ≤ r ∧ r < lo + n) ∧ j < m then g r j else tbl r j := by
  induction n with
  | zero =>
    intro lo tbl r j
    have : ¬ ((lo ≤ r ∧ r < lo + 0) ∧ j < m) := by omega
    rw [if_neg this]
    rfl
  | succ n ih =>
    intro lo tbl r j
    rw [forLoop_succ, ih, forLoop_store2_row]
    by_cases h1 : (lo + 1 ≤ r ∧ r < lo + 1 + n) ∧ j < m
    · have h2 : (lo ≤ r ∧ r < lo + (n + 1)) ∧ j < m := by omega
      rw [if_pos h1, if_pos h2]
    · rw [if_neg h1]
      by_cases h3 : r = lo ∧ 0 ≤ j ∧ j < 0 + m
      · have h2 : (lo ≤ r ∧ r < lo + (n + 1)) ∧ j < m := by omega
        rw [if_pos h3, if_pos h2, h3.1]
      · have h2 : ¬ ((lo ≤ r ∧ r < lo + (n + 1)) ∧ j < m) := by omega
        rw [if_neg h3, if_neg h2]

/-- Cell `[f][i]` of the table `mfccFrames`. -/
theorem mfccFramesTable_apply (L : Libm) (samples : Nat → Int) (numSamples : Nat)
    (sampleRate : Int) (f i : Nat) :
    mfccFramesTable L samples numSamples sampleRate f i
      = if f < actualFrames numSamples ∧ i < 13 then frameMFCC L samples sampleRate f i
        else 0 := by
  unfold mfccFramesTable N_MFCC
  rw [forLoop_table (fun f i => frameMFCC L samples sampleRate f i) 13
    (actualFrames numSamples) 0 (fun _ _ => 0) f i]
  simp

/-- Cell `[f][i]` of a delta table: the centered difference inside, `0` at the
edges and in the cells that are never written. -/
theorem deltaTable_apply (F : Nat) (src : Nat → Nat → ℚ) (f i : Nat) :
    deltaTable F src f i
      = if (f < F ∧ i < 13) ∧ (0 < f ∧ f + 1 < F) then (src (f + 1) i - src (f - 1) i) / 2
        else 0 := by
  have e : deltaTable F src
      = forLoop 0 F (fun f tbl => forLoop 0 13 (fun i tbl => store2 tbl f i
          ((fun f i => if 0 < f ∧ f + 1 < F then (src (f + 1) i - src (f - 1) i) / 2 else 0)
            f i)) tbl) (fun _ _ => 0) := by
    unfold deltaTable N_MFCC
    congr 1
    funext f tbl
    congr 1
    funext i tbl
    by_cases c : 0 < f ∧ f + 1 < F
    · have c2 : f > 0 ∧ (f : Int) < (F : Int) - 1 := by omega
      rw [if_pos c2]
      simp only [if_pos c]
      norm_num
    · have c2 : ¬ (f > 0 ∧ (f : Int) < (F : Int) - 1) := by omega
      rw [if_neg c2]
      simp only [if_neg c]
  rw [e, forLoop_table]
  by_cases h : f < F ∧ i < 13
  · have h2 : (0 ≤ f ∧ f < 0 + F) ∧ i < 13 := by omega
    rw [if_pos h2]
    by_cases c : 0 < f ∧ f + 1 < F
    · rw [if_pos c, if_pos ⟨h, c⟩]
    · rw [if_neg c, if_neg (fun hh => c hh.2)]
  · have h2 : ¬ ((0 ≤ f ∧ f < 0 + F) ∧ i < 13) := by omega
    rw [if_neg h2, if_neg (fun hh => h hh.1)]

/-- Cell `k` of the output of `dct`. -/
theorem dct_apply (L : Libm) (input output : Nat → ℚ) (n k : Nat) :
    dct L input output n k
      = if k < n then
          ∑ i in Finset.range n,
            input i * L.cos (L.pi * (k : ℚ) * ((2 * i + 1 : Nat) : ℚ) / (2.0 * (n : ℚ)))
        else output k := by
  unfold dct
  simp only []
  rw [forLoop_store (fun k => forLoop 0 n (fun i sum => sum + input i *
    L.cos (L.pi * (k : ℚ) * ((2 * i + 1 : Nat) : ℚ) / (2.0 * (n : ℚ)))) 0.0) n 0 output k]
  by_cases h : k < n
  · rw [if_pos ⟨Nat.zero_le k, by omega⟩, if_pos h,
      forLoop_sum (fun i => input i *
        L.cos (L.pi * (k : ℚ) * ((2 * i + 1 : Nat) : ℚ) / (2.0 * (n : ℚ)))) n 0 0.0]
    norm_num
  · rw [if_neg (by omega), if_neg h]

/-- Cell `i` of the output of `computePowerSpectrum`. -/
theorem computePowerSpectrum_apply (L : Libm) (frame : Nat → Int) (frameSize : Nat)
    (spectrum : Nat → ℚ) (i : Nat) :
    computePowerSpectrum L frame frameSize spectrum i
      = if i < frameSize / 2 then
          ((frame i : ℚ) * (0.54 - 0.46 * L.cos (2 * L.pi * (i : ℚ)
              / (((frameSize : Int) - 1 : Int) : ℚ))) / 32768.0) ^ 2
          + ((frame (frameSize - 1 - i) : ℚ) * (0.54 - 0.46 * L.cos (2 * L.pi * (i : ℚ)
              / (((frameSize : Int) - 1 : Int) : ℚ))) / 32768.0) ^ 2
        else spectrum i := by
  unfold computePowerSpectrum
  simp only []
  rw [forLoop_store (fun i => ((frame i : ℚ) * (0.54 - 0.46 * L.cos (2 * L.pi * (i : ℚ)
        / (((frameSize : Int) - 1 : Int) : ℚ))) / 32768.0)
      * ((frame i : ℚ) * (0.54 - 0.46 * L.cos (2 * L.pi * (i : ℚ)
        / (((frameSize : Int) - 1 : Int) : ℚ))) / 32768.0)
      + ((frame (frameSize - 1 - i) : ℚ) * (0.54 - 0.46 * L.cos (2 * L.pi * (i : ℚ)
        / (((frameSize : Int) - 1 : Int) : ℚ))) / 32768.0)
      * ((frame (frameSize - 1 - i) : ℚ) * (0.54 - 0.46 * L.cos (2 * L.pi * (i : ℚ)
        / (((frameSize : Int) - 1 : Int) : ℚ))) / 32768.0)) (frameSize / 2) 0 spectrum i]
  by_cases h : i < frameSize / 2
  · rw [if_pos ⟨Nat.zero_le i, by omega⟩, if_pos h, sq, sq]
  · rw [if_neg (by omega), if_neg h]

/-- The power spectrum is non-negative. -/
theorem computePowerSpectrum_nonneg (L : Libm) (frame : Nat → Int) (frameSize : Nat) (i : Nat) :
    0 ≤ computePowerSpectrum L frame frameSize (fun _ => 0) i := by
  rw [computePowerSpectrum_apply]
  split_ifs
  · positivity
  · exact le_refl 0

/-- The power spectrum depends only on the cells of `frame` listed by
`computePowerSpectrumReads`. -/
theorem computePowerSpectrum_congr (L : Libm) (frame frame2 : Nat → Int) (frameSize : Nat)
    (spectrum : Nat → ℚ) (h : ∀ j, j ∈ computePowerSpectrumReads frameSize → frame2 j = frame j) :
    computePowerSpectrum L frame2 frameSize spectrum
      = computePowerSpectrum L frame frameSize spectrum := by
  funext i
  rw [computePowerSpectrum_apply, computePowerSpectrum_apply]
  by_cases hi : i < frameSize / 2
  · have m1 : i ∈ computePowerSpectrumReads frameSize := by
      unfold computePowerSpectrumReads
      simp only [List.mem_flatMap, List.mem_range]
      exact ⟨i, hi, by simp⟩
    have m2 : frameSize - 1 - i ∈ computePowerSpectrumReads frameSize := by
      unfold computePowerSpectrumReads
      simp only [List.mem_flatMap, List.mem_range]
      exact ⟨i, hi, by simp⟩
    rw [if_pos hi, if_pos hi, h _ m1, h _ m2]
  · rw [if_neg hi, if_neg hi]

/-- Every index read by `computePowerSpectrum` is below `frameSize`. -/
theorem mem_computePowerSpectrumReads (frameSize j : Nat)
    (h : j ∈ computePowerSpectrumReads frameSize) : j < frameSize := by
  unfold computePowerSpectrumReads at h
  simp only [List.mem_flatMap, List.mem_range, List.mem_cons, List.mem_singleton,
    List.not_mem_nil, or_false] at h
  obtain ⟨i, hi, hj⟩ := h
  omega

/-- The sample indices read: frame offset plus an index read in the frame. -/
theorem mem_sampleReads (numSamples idx : Nat) :
    idx ∈ sampleReads numSamples ↔
      ∃ f, f < actualFrames numSamples ∧
        ∃ j, j ∈ computePowerSpectrumReads N_FFT ∧ idx = f * HOP_LENGTH + j := by
  unfold sampleReads
  simp only [List.mem_flatMap, List.mem_range, List.mem_map]
  constructor
  · rintro ⟨f, hf, j, hj, rfl⟩
    exact ⟨f, hf, j, hj, rfl⟩
  · rintro ⟨f, hf, j, hj, rfl⟩
    exact ⟨f, hf, j, hj, rfl⟩

/-- The MFCC vector of frame `f` depends only on the samples read for it. -/
theorem frameMFCC_congr (L : Libm) (samples samples2 : Nat → Int) (sampleRate : Int) (f : Nat)
    (h : ∀ j, j ∈ computePowerSpectrumReads N_FFT →
      samples2 (f * HOP_LENGTH + j) = samples (f * HOP_LENGTH + j)) :
    frameMFCC L samples2 sampleRate f = frameMFCC L samples sampleRate f := by
  unfold frameMFCC
  simp only []
  rw [computePowerSpectrum_congr L (fun j => samples (f * HOP_LENGTH + j))
    (fun j => samples2 (f * HOP_LENGTH + j)) N_FFT (fun _ => 0) h]

/-- The table `mfccFrames` depends only on the samples listed by `sampleReads`. -/
theorem mfccFramesTable_congr (L : Libm) (samples samples2 : Nat → Int) (numSamples : Nat)
    (sampleRate : Int)
    (h : ∀ idx, idx ∈ sampleReads numSamples → samples2 idx = samples idx) :
    mfccFramesTable L samples2 numSamples sampleRate
      = mfccFramesTable L samples numSamples sampleRate := by
  funext f i
  rw [mfccFramesTable_apply, mfccFramesTable_apply]
  by_cases c : f < actualFrames numSamples ∧ i < 13
  · rw [if_pos c, if_pos c, frameMFCC_congr L samples samples2 sampleRate f]
    intro j hj
    exact h _ ((mem_sampleReads numSamples _).2 ⟨f, c.1, j, hj, rfl⟩)
  · rw [if_neg c, if_neg c]

/-- The output of `extractMFCC` depends only on the samples listed by
`sampleReads`. -/
theorem extractMFCC_congr (L : Libm) (samples samples2 : Nat → Int) (numSamples : Nat)
    (sampleRate : Int) (features : Nat → ℚ)
    (h : ∀ idx, idx ∈ sampleReads numSamples → samples2 idx = samples idx) :
    extractMFCC L samples2 numSamples sampleRate features
      = extractMFCC L samples numSamples sampleRate features := by
  unfold extractMFCC
  rw [mfccFramesTable_congr L samples samples2 numSamples sampleRate h]

/-- The number of processed frames of a buffer that holds at least one frame. -/
theorem actualFrames_eq (n : Nat) (h1 : 2048 ≤ n) (h2 : n < 4294967296) :
    actualFrames n = min ((n - 2048) / 512 + 1) 100 := by
  unfold actualFrames numFrames toSInt toUInt N_FFT HOP_LENGTH
  simp only []
  have e1 : (((n : Int) - ((2048 : Nat) : Int)) % (2 : Int) ^ 32).toNat = n - 2048 := by omega
  rw [e1]
  have e2 : ((n - 2048) / 512 + 1) % 2 ^ 32 = (n - 2048) / 512 + 1 := by omega
  rw [e2]
  have e3 : ((n - 2048) / 512 + 1) % 2 ^ 32 = (n - 2048) / 512 + 1 := by omega
  simp only [e3]
  split_ifs <;> omega

/-- A buffer shorter than one frame: the unsigned subtraction wraps and 100
frames are processed. -/
theorem actualFrames_short (n : Nat) (h : n < 2048) : actualFrames n = 100 := by
  unfold actualFrames numFrames toSInt toUInt N_FFT HOP_LENGTH
  simp only []
  have e1 : (((n : Int) - ((2048 : Nat) : Int)) % (2 : Int) ^ 32).toNat
      = n + 4294967296 - 2048 := by omega
  rw [e1]
  have e3 : ((n + 4294967296 - 2048) / 512 + 1) % 2 ^ 32 = (n + 4294967296 - 2048) / 512 + 1 := by
    omega
  simp only [e3]
  split_ifs <;> omega

/-- Every sample index read lies below the end of the last processed frame. -/
theorem sampleReads_lt (n idx : Nat) (h : idx ∈ sampleReads n) :
    idx < (actualFrames n - 1) * 512 + 2048 := by
  obtain ⟨f, hf, j, hj, rfl⟩ := (mem_sampleReads n idx).1 h
  have := mem_computePowerSpectrumReads _ _ hj
  unfold N_FFT at this
  unfold HOP_LENGTH
  have : f ≤ actualFrames n - 1 := by omega
  have : f * 512 ≤ (actualFrames n - 1) * 512 := Nat.mul_le_mul_right 512 this
  omega

/-- Each of the 40 mel energies is the logarithm of a sum of spectrum cells plus
the floor `1e-10`. -/
theorem melFilterbank_apply (L : Libm) (sampleRate : Int) (spectrum melEnergies : Nat → ℚ)
    (m : Nat) (hm : m < 40) :
    ∃ (binLow : Int) (count : Nat),
      melFilterbank L sampleRate spectrum melEnergies m
        = L.log ((∑ j in Finset.range count, cellAt spectrum (binLow + (j : Int))) + 1e-10) := by
  refine ⟨truncToInt (invMelScale L (melScale L FMIN
      + (m : ℚ) * (melScale L FMAX - melScale L FMIN) / (N_MELS : ℚ)) * (N_FFT : ℚ)
      / (sampleRate : ℚ)),
    (min (truncToInt (invMelScale L (melScale L FMIN
      + ((m + 1 : Nat) : ℚ) * (melScale L FMAX - melScale L FMIN) / (N_MELS : ℚ)) * (N_FFT : ℚ)
      / (sampleRate : ℚ))) ((N_FFT / 2 : Nat) : Int)
      - truncToInt (invMelScale L (melScale L FMIN
      + (m : ℚ) * (melScale L FMAX - melScale L FMIN) / (N_MELS : ℚ)) * (N_FFT : ℚ)
      / (sampleRate : ℚ))).toNat, ?_⟩
  unfold melFilterbank
  simp only []
  rw [forLoop_store (fun m => L.log (forLoop 0
      (min (truncToInt (invMelScale L (melScale L FMIN
        + ((m + 1 : Nat) : ℚ) * (melScale L FMAX - melScale L FMIN) / (N_MELS : ℚ)) * (N_FFT : ℚ)
        / (sampleRate : ℚ))) ((N_FFT / 2 : Nat) : Int)
        - truncToInt (invMelScale L (melScale L FMIN
        + (m : ℚ) * (melScale L FMAX - melScale L FMIN) / (N_MELS : ℚ)) * (N_FFT : ℚ)
        / (sampleRate : ℚ))).toNat
      (fun j sum => sum + cellAt spectrum (truncToInt (invMelScale L (melScale L FMIN
        + (m : ℚ) * (melScale L FMAX - melScale L FMIN) / (N_MELS : ℚ)) * (N_FFT : ℚ)
        / (sampleRate : ℚ)) + (j : Int))) 0.0 + 1e-10)) N_MELS 0 melEnergies m]
  rw [if_pos ⟨Nat.zero_le m, by unfold N_MELS; omega⟩]
  congr 2
  rw [forLoop_sum (fun j => cellAt spectrum (truncToInt (invMelScale L (melScale L FMIN
        + (m : ℚ) * (melScale L FMAX - melScale L FMIN) / (N_MELS : ℚ)) * (N_FFT : ℚ)
        / (sampleRate : ℚ)) + (j : Int)))]
  simp only [Nat.zero_add]
  norm_num

/-- The mel energies of an all-zero spectrum. -/
theorem melFilterbank_silence (L : Libm) (sampleRate : Int) (melEnergies : Nat → ℚ)
    (m : Nat) (hm : m < 40) :
    melFilterbank L sampleRate (fun _ => 0) melEnergies m = L.log 1e-10 := by
  obtain ⟨lo, cnt, h⟩ := melFilterbank_apply L sampleRate (fun _ => 0) melEnergies m hm
  rw [h]
  have : ∀ b : Int, cellAt (fun _ => (0 : ℚ)) b = 0 := by
    intro b; unfold cellAt; split_ifs <;> rfl
  simp only [this, Finset.sum_const_zero, zero_add]

/-- The MFCC vector of a frame: the DCT-II of its first 13 mel energies. -/
theorem frameMFCC_apply (L : Libm) (samples : Nat → Int) (sampleRate : Int) (f k : Nat) :
    frameMFCC L samples sampleRate f k
      = if k < 13 then dctII L (frameMelEnergies L samples sampleRate f) 13 k else 0 := by
  unfold frameMFCC frameMelEnergies dctII
  rw [dct_apply]
  unfold N_MFCC
  by_cases h : k < 13
  · rw [if_pos h, if_pos h]
    apply Finset.sum_congr rfl
    intro i _
    norm_num
  · rw [if_neg h, if_neg h]

/-- The power spectrum of an all-zero frame. -/
theorem computePowerSpectrum_silence (L : Libm) (frameSize : Nat) :
    computePowerSpectrum L (fun _ => 0) frameSize (fun _ => 0) = fun _ => 0 := by
  funext i
  rw [computePowerSpectrum_apply]
  split_ifs
  · simp
  · rfl

/-- The mel energies of a frame of an all-zero buffer. -/
theorem frameMelEnergies_silence (L : Libm) (sampleRate : Int) (f m : Nat) (hm : m < 40) :
    frameMelEnergies L (fun _ => 0) sampleRate f m = L.log 1e-10 := by
  unfold frameMelEnergies
  rw [computePowerSpectrum_silence]
  exact melFilterbank_silence L sampleRate _ m hm

/-- The MFCC vector of a frame of an all-zero buffer. -/
theorem frameMFCC_silence (L : Libm) (sampleRate : Int) (f k : Nat) (hk : k < 13) :
    frameMFCC L (fun _ => 0) sampleRate f k
      = ∑ i in Finset.range 13,
          L.log 1e-10 * L.cos (L.pi * (k : ℚ) * ((2 * i + 1 : Nat) : ℚ) / (2 * 13)) := by
  rw [frameMFCC_apply, if_pos hk]
  unfold dctII
  apply Finset.sum_congr rfl
  intro i hi
  rw [frameMelEnergies_silence L sampleRate f i (by simp at hi; omega)]
  norm_num

/-- The mean of a coefficient that is the same in every frame. -/
theorem acrossFrameMean_const (F : Nat) (tbl : Nat → Nat → ℚ) (i : Nat) (c : ℚ)
    (hF : 1 ≤ F) (h : ∀ f, f < F → tbl f i = c) : acrossFrameMean F tbl i = c := by
  unfold acrossFrameMean
  rw [Finset.sum_congr rfl (fun f hf => h f (Finset.mem_range.1 hf))]
  rw [Finset.sum_const, Finset.card_range, nsmul_eq_mul]
  have : (F : ℚ) ≠ 0 := by
    have : (1 : ℚ) ≤ (F : ℚ) := by exact_mod_cast hF
    linarith
  field_simp

/-- The standard deviation of a coefficient that is the same in every frame. -/
theorem acrossFrameStd_const (L : Libm) (F : Nat) (tbl : Nat → Nat → ℚ) (i : Nat) (c : ℚ)
    (hsqrt : L.sqrt 0 = 0) (hF : 1 ≤ F) (h : ∀ f, f < F → tbl f i = c) :
    acrossFrameStd L F tbl i = 0 := by
  unfold acrossFrameStd
  rw [acrossFrameMean_const F tbl i c hF h]
  rw [Finset.sum_congr rfl (fun f hf => by rw [h f (Finset.mem_range.1 hf), sub_self]),
    ]
  simp [hsqrt]

/-- The delta table of a table whose processed frames are all alike is zero. -/
theorem deltaTable_zero_of_const (F : Nat) (src : Nat → Nat → ℚ) (v : Nat → ℚ)
    (h : ∀ f, f < F → ∀ i, i < 13 → src f i = v i) (f i : Nat) :
    deltaTable F src f i = 0 := by
  rw [deltaTable_apply]
  split_ifs with c
  · rw [h (f + 1) (by omega) i (by omega), h (f - 1) (by omega) i (by omega)]
    simp
  · rfl

/-- With at most two frames every frame is an edge frame. -/
theorem deltaTable_zero_of_few (F : Nat) (src : Nat → Nat → ℚ) (hF : F ≤ 2) (f i : Nat) :
    deltaTable F src f i = 0 := by
  rw [deltaTable_apply]
  split_ifs with c
  · omega
  · rfl

/-- The feature vector when every processed frame has the same MFCC vector `v`. -/
theorem extractMFCC_constant (L : Libm) (samples : Nat → Int) (numSamples : Nat)
    (sampleRate : Int) (features v : Nat → ℚ) (hsqrt : L.sqrt 0 = 0)
    (hconst : ∀ f, f < actualFrames numSamples → ∀ i, i < 13 →
      frameMFCC L samples sampleRate f i = v i) (i : Nat) (hi : i < 13) :
    (extractMFCC L samples numSamples sampleRate features).features i = v i ∧
    (extractMFCC L samples numSamples sampleRate features).features (13 + i) = 0 ∧
    (extractMFCC L samples numSamples sampleRate features).features (26 + i) = 0 ∧
    (extractMFCC L samples numSamples sampleRate features).features (39 + i) = 0 ∧
    (extractMFCC L samples numSamples sampleRate features).features (52 + i) = 0 ∧
    (extractMFCC L samples numSamples sampleRate features).features (65 + i) = 0 := by
  obtain ⟨⟨hF, _⟩, _, _, _, hc⟩ := extractMFCC_cells L samples numSamples sampleRate features
  obtain ⟨c0, c1, c2, c3, c4, c5⟩ := hc i hi
  have hM : ∀ f, f < actualFrames numSamples → ∀ i, i < 13 →
      mfccFramesTable L samples numSamples sampleRate f i = v i := by
    intro f hf j hj
    rw [mfccFramesTable_apply, if_pos ⟨hf, hj⟩]
    exact hconst f hf j hj
  have hD := deltaTable_zero_of_const (actualFrames numSamples)
    (mfccFramesTable L samples numSamples sampleRate) v hM
  have hD2 := deltaTable_zero_of_const (actualFrames numSamples)
    (deltaTable (actualFrames numSamples) (mfccFramesTable L samples numSamples sampleRate))
    (fun _ => 0) (fun f _ j _ => hD f j)
  refine ⟨?_, ?_, ?_, ?_, ?_, ?_⟩
  · rw [c0]; exact acrossFrameMean_const _ _ _ _ hF (fun f hf => hM f hf i hi)
  · rw [c1]; exact acrossFrameMean_const _ _ _ _ hF (fun f _ => hD f i)
  · rw [c2]; exact acrossFrameMean_const _ _ _ _ hF (fun f _ => hD2 f i)
  · rw [c3]; exact acrossFrameStd_const L _ _ _ _ hsqrt hF (fun f hf => hM f hf i hi)
  · rw [c4]; exact acrossFrameStd_const L _ _ _ _ hsqrt hF (fun f _ => hD f i)
  · rw [c5]; exact acrossFrameStd_const L _ _ _ _ hsqrt hF (fun f _ => hD2 f i)

/-- On an all-zero buffer pre-emphasis and normalisation change nothing. -/
theorem extractMFCCFeatures_silence (L : Libm) (mfccFeatures : Nat → ℚ) :
    extractMFCCFeatures L (fun _ => 0) mfccFeatures
      = (fun _ => 0, extractMFCC L (fun _ => 0) AUDIO_BUFFER_SIZE SAMPLE_RATE mfccFeatures) := by
  unfold extractMFCCFeatures
  simp only []
  have hb : forLoop 0 (AUDIO_BUFFER_SIZE - 1)
      (fun j (buf : Nat → Int) =>
        store buf (AUDIO_BUFFER_SIZE - 1 - j)
          (toInt16 (truncToInt ((buf (AUDIO_BUFFER_SIZE - 1 - j) : ℚ)
            - 0.97 * (buf (AUDIO_BUFFER_SIZE - 1 - j - 1) : ℚ)))))
      (fun _ => 0) = fun _ => 0 := by
    apply forLoop_invariant (fun buf : Nat → Int => buf = fun _ => 0)
    · rfl
    · intro i _ _ t ht
      subst ht
      funext j
      rw [store_apply]
      split_ifs
      · simp [truncToInt, toInt16, toSInt, toUInt]
      · rfl
  rw [hb]
  have hm : forLoop 0 AUDIO_BUFFER_SIZE
      (fun i (maxVal : Int) =>
        if |(fun _ : Nat => (0 : Int)) i| > maxVal then toInt16 |(fun _ : Nat => (0 : Int)) i|
        else maxVal) 0 = 0 := by
    apply forLoop_invariant (fun m : Int => m = 0)
    · rfl
    · intro i _ _ t ht
      subst ht
      simp
  rw [hm]
  simp

/-! ## Base station: status names and rule 1 -/

/-- The class returned by `runInference` is one of `0..3`. -/
theorem runInference_lt_four (MEAN SCALE features : Nat → ℚ) :
    (runInference MEAN SCALE features).1 < 4 :=
  (findBestClass_spec _).1

/-- C11 (code defect). `QUEEN_STATUS_NAMES` has four entries and is indexed
without a range check.  For a packet of 318 bytes every lookup uses the class
returned by `runInference`, which is below 4.  For a packet of 16 bytes every
lookup uses the received `queenStatus` byte as it is: the packet whose second
byte is `4` makes `processPacket` and `uploadToCloud` read
`QUEEN_STATUS_NAMES[4]`, outside the table, and the request it sends has no
label among the four. -/
theorem nameLookup_index_unchecked (MEAN SCALE f32 : Nat → ℚ) (env : Env) (rx : List Nat) :
    (processPacket MEAN SCALE f32 env 16 rx).filterMap Event.lookupIndex =
      (if env.wifiConnected = true ∧ env.wifiStatusConnected = true then
        [(readPacket rx).queenStatus, (readPacket rx).queenStatus]
       else [(readPacket rx).queenStatus]) ∧
    (processPacket MEAN SCALE f32 env 318 rx).filterMap Event.lookupIndex =
      (if env.wifiConnected = true ∧ env.wifiStatusConnected = true then
        [(runInference MEAN SCALE (fun k => f32 ((readPacketFull rx).mfccFeatures k))).1,
         (runInference MEAN SCALE (fun k => f32 ((readPacketFull rx).mfccFeatures k))).1]
       else [(runInference MEAN SCALE (fun k => f32 ((readPacketFull rx).mfccFeatures k))).1]) ∧
    (runInference MEAN SCALE (fun k => f32 ((readPacketFull rx).mfccFeatures k))).1
      < QUEEN_STATUS_NAMES.length ∧
    (QUEEN_STATUS_NAMES.length = 4 ∧
     (readPacket [1, 4, 0, 6, 255, 55, 116, 14, 5, 0, 0, 0, 9, 9, 9, 9]).queenStatus = 4 ∧
     (processPacket MEAN SCALE f32 ⟨true, true, 7, 200⟩ 16
        [1, 4, 0, 6, 255, 55, 116, 14, 5, 0, 0, 0, 9, 9, 9, 9]).filterMap Event.lookupIndex
        = [4, 4] ∧
     (processPacket MEAN SCALE f32 ⟨true, true, 7, 200⟩ 16
        [1, 4, 0, 6, 255, 55, 116, 14, 5, 0, 0, 0, 9, 9, 9, 9]).filter Event.isPost =
      [Event.post
        { hive_id := 1
          queen_status := 4
          queen_status_name := none
          anomaly_score := 0
          temperature := -5 / 2
          humidity := 55
          battery_mv := 3700
          timestamp := 7 }]) := by
  have hq : (readPacket [1, 4, 0, 6, 255, 55, 116, 14, 5, 0, 0, 0, 9, 9, 9, 9]).queenStatus = 4 := by
    decide
  refine ⟨?_, ?_, runInference_lt_four _ _ _, rfl, hq, ?_, ?_⟩
  · rw [processPacket_simple, uploadToCloud_events]
    split_ifs <;> simp [BaseStation.Event.lookupIndex, List.filterMap_cons]
  · rw [processPacket_full, uploadToCloud_events]
    split_ifs <;> simp [runInference, BaseStation.Event.lookupIndex, List.filterMap_cons]
  · rw [processPacket_simple, uploadToCloud_events, hq]
    simp [BaseStation.Event.lookupIndex, List.filterMap_cons]
  · rw [processPacket_simple, uploadToCloud_events]
    simp [BaseStation.Event.isPost, List.filter_cons, readPacket, fieldAt, bytesAt, leValue,
      toSInt, QUEEN_STATUS_NAMES, List.range, List.range.loop]
    norm_num

/-- The scores of a normalised vector that fires the high branch of rule 1. -/
theorem xgboostPredict_rule1 (features scores0 : Nat → ℚ) (h0 : features 0 > 0.5) :
    xgboostPredict features scores0 3 ≥ 1.8 ∧
    xgboostPredict features scores0 0 ≤ 1.5 ∧
    xgboostPredict features scores0 1 ≤ 1.5 ∧
    xgboostPredict features scores0 2 ≤ 1.5 := by
  have a2 : features 0 > 0 := by norm_num at h0 ⊢; linarith
  simp only [xgboostPredict, if_pos h0, a2, and_true]
  by_cases h39 : features 39 > 1.0 <;> by_cases h1 : features 1 > 0.3 <;>
    by_cases h1n : features 1 < -0.3 <;> by_cases h13 : features 13 > 0.5 <;>
    simp only [h39, h1, h1n, h13, if_true, if_false, addTo, store_apply] <;> norm_num

/-- C17. Dominance of rule 1.  For every normalised feature vector with
`feature[0] > 0.5`, whatever its other values, `xgboostPredict` gives
Queen_Accepted a score of at least `1.8` and every other class a score of at
most `1.5`, so the selected class is `3`; `runInference` returns class `3`
whenever the normalised vector has `feature[0] > 0.5`. -/
theorem rule1_dominates :
    (∀ features scores0 : Nat → ℚ, features 0 > 0.5 →
      xgboostPredict features scores0 3 ≥ 1.8 ∧
      xgboostPredict features scores0 0 ≤ 1.5 ∧
      xgboostPredict features scores0 1 ≤ 1.5 ∧
      xgboostPredict features scores0 2 ≤ 1.5 ∧
      (findBestClass (xgboostPredict features scores0)).1 = 3) ∧
    (∀ MEAN SCALE raw : Nat → ℚ,
      normalizeFeatures MEAN SCALE raw (fun _ => 0) 0 > 0.5 →
      (runInference MEAN SCALE raw).1 = 3) := by
  have key : ∀ features scores0 : Nat → ℚ, features 0 > 0.5 →
      (findBestClass (xgboostPredict features scores0)).1 = 3 := by
    intro features scores0 h0
    obtain ⟨s3, s0, s1, s2⟩ := xgboostPredict_rule1 features scores0 h0
    rw [findBestClass_eq]
    norm_num at s3 s0 s1 s2
    have c : xgboostPredict features scores0 3 >
        (if xgboostPredict features scores0 2 >
            (if xgboostPredict features scores0 1 > xgboostPredict features scores0 0
              then xgboostPredict features scores0 1 else xgboostPredict features scores0 0)
          then xgboostPredict features scores0 2
          else (if xgboostPredict features scores0 1 > xgboostPredict features scores0 0
              then xgboostPredict features scores0 1 else xgboostPredict features scores0 0)) := by
      split_ifs <;> linarith
    rw [if_pos c]
  refine ⟨?_, ?_⟩
  · intro features scores0 h0
    obtain ⟨s3, s0, s1, s2⟩ := xgboostPredict_rule1 features scores0 h0
    exact ⟨s3, s0, s1, s2, key features scores0 h0⟩
  · intro MEAN SCALE raw h0
    exact key _ _ h0

/-- Witness of C17: with the identity scaler, a raw vector with `1` in cell
`0` and `5` in every other cell is classified as class `3`. -/
theorem rule1_dominates_witness :
    (runInference (fun _ => 0) (fun _ => 1) (fun i => if i = 0 then 1 else 5)).1 = 3 :=
  rule1_dominates.2 (fun _ => 0) (fun _ => 1) (fun i => if i = 0 then 1 else 5)
    (by rw [normalizeFeatures_apply]; norm_num)

/-! ## Hive sensor: silence, short buffers, frame cap and the cepstral transform -/

/-- The logarithm of a mel energy is taken of a value of at least `1e-10`. -/
theorem frameMelEnergies_log_floor (L : Libm) (samples : Nat → Int) (sampleRate : Int)
    (f m : Nat) (hm : m < 40) :
    ∃ x : ℚ, 1e-10 ≤ x ∧ frameMelEnergies L samples sampleRate f m = L.log x := by
  unfold frameMelEnergies
  obtain ⟨lo, cnt, h⟩ := melFilterbank_apply L sampleRate
    (computePowerSpectrum L (fun j => samples (f * HOP_LENGTH + j)) N_FFT (fun _ => 0))
    (fun _ => 0) m hm
  refine ⟨_, ?_, h⟩
  have hc : ∀ b : Int, 0 ≤ cellAt
      (computePowerSpectrum L (fun j => samples (f * HOP_LENGTH + j)) N_FFT (fun _ => 0)) b := by
    intro b
    unfold cellAt
    split_ifs
    · exact computePowerSpectrum_nonneg _ _ _ _
    · exact le_refl 0
  have hs : 0 ≤ ∑ j in Finset.range cnt, cellAt
      (computePowerSpectrum L (fun j => samples (f * HOP_LENGTH + j)) N_FFT (fun _ => 0))
      (lo + (j : Int)) := Finset.sum_nonneg (fun j _ => hc _)
  linarith

/-- C12. Silence.  Whenever all processed frames yield the same MFCC vector
`v` (and `sqrt 0 = 0`), the feature vector has the entries `0..12` equal to
`v`, the delta and delta-delta means `13..38` equal to `0` and all 39
standard deviations `39..77` equal to `0`.  For the all-zero buffer of the
configured length of 220,500 samples `extractMFCCFeatures` leaves the buffer
all zero and every frame has the same MFCC vector, coefficient `i` being the
sum over the first 13 bands of `log(1e-10) * cos(pi * i * (2m + 1) / 26)`.
In every frame of every buffer the logarithm is applied to a value of at least
`1e-10 > 0`, so the values are finite. -/
theorem extractMFCC_silence :
    (∀ (L : Libm) (samples : Nat → Int) (numSamples : Nat) (sampleRate : Int)
        (features v : Nat → ℚ),
      L.sqrt 0 = 0 →
      (∀ f, f < actualFrames numSamples → ∀ i, i < 13 →
        frameMFCC L samples sampleRate f i = v i) →
      ∀ i, i < 13 →
        (extractMFCC L samples numSamples sampleRate features).features i = v i ∧
        (extractMFCC L samples numSamples sampleRate features).features (13 + i) = 0 ∧
        (extractMFCC L samples numSamples sampleRate features).features (26 + i) = 0 ∧
        (extractMFCC L samples numSamples sampleRate features).features (39 + i) = 0 ∧
        (extractMFCC L samples numSamples sampleRate features).features (52 + i) = 0 ∧
        (extractMFCC L samples numSamples sampleRate features).features (65 + i) = 0) ∧
    (∀ (L : Libm) (mfccFeatures : Nat → ℚ),
      L.sqrt 0 = 0 →
      ∀ i, i < 13 →
        (extractMFCCFeatures L (fun _ => 0) mfccFeatures).2.features i
          = ∑ m in Finset.range 13,
              L.log 1e-10 * L.cos (L.pi * (i : ℚ) * ((2 * m + 1 : Nat) : ℚ) / (2 * 13)) ∧
        (extractMFCCFeatures L (fun _ => 0) mfccFeatures).2.features (13 + i) = 0 ∧
        (extractMFCCFeatures L (fun _ => 0) mfccFeatures).2.features (26 + i) = 0 ∧
        (extractMFCCFeatures L (fun _ => 0) mfccFeatures).2.features (39 + i) = 0 ∧
        (extractMFCCFeatures L (fun _ => 0) mfccFeatures).2.features (52 + i) = 0 ∧
        (extractMFCCFeatures L (fun _ => 0) mfccFeatures).2.features (65 + i) = 0) ∧
    (∀ (L : Libm) (samples : Nat → Int) (sampleRate : Int) (f m : Nat), m < 40 →
      ∃ x : ℚ, 1e-10 ≤ x ∧ frameMelEnergies L samples sampleRate f m = L.log x) ∧
    (AUDIO_BUFFER_SIZE = 220500 ∧ (0 : ℚ) < 1e-10) := by
  refine ⟨?_, ?_, ?_, rfl, by norm_num⟩
  · intro L samples numSamples sampleRate features v hsqrt hconst i hi
    exact extractMFCC_constant L samples numSamples sampleRate features v hsqrt hconst i hi
  · intro L mfccFeatures hsqrt i hi
    rw [extractMFCCFeatures_silence]
    exact extractMFCC_constant L (fun _ => 0) AUDIO_BUFFER_SIZE SAMPLE_RATE mfccFeatures
      (fun k => ∑ m in Finset.range 13,
        L.log 1e-10 * L.cos (L.pi * (k : ℚ) * ((2 * m + 1 : Nat) : ℚ) / (2 * 13)))
      hsqrt (fun f _ k hk => frameMFCC_silence L SAMPLE_RATE f k hk) i hi
  · intro L samples sampleRate f m hm
    exact frameMelEnergies_log_floor L samples sampleRate f m hm

/-- Witness of C12: with `sqrt` the identity, `cos` constant `1` and `log`
constant `-23`, the silent buffer gives mean `-299` for MFCC 0 and standard
deviation `0`. -/
theorem extractMFCC_silence_witness :
    (extractMFCCFeatures ⟨3, fun _ => 1, fun _ => -23, fun x => x, fun x _ => x, fun x => x⟩
      (fun _ => 0) (fun _ => 7)).2.features 0 = -299 ∧
    (extractMFCCFeatures ⟨3, fun _ => 1, fun _ => -23, fun x => x, fun x _ => x, fun x => x⟩
      (fun _ => 0) (fun _ => 7)).2.features 39 = 0 := by
  have h := extractMFCC_silence.2.1
    ⟨3, fun _ => 1, fun _ => -23, fun x => x, fun x _ => x, fun x => x⟩ (fun _ => 7) rfl 0
    (by norm_num)
  refine ⟨?_, h.2.2.2.1⟩
  rw [h.1]
  simp
  norm_num

/-- C13 (code defect). For a buffer shorter than one frame the unsigned
subtraction `numSamples - N_FFT` wraps: `numFrames` is `8,388,605` for the
empty buffer, the guard `numFrames <= 0` never fires, and for every
`numSamples < 2048` exactly 100 frames are processed.  The samples read then
reach index `99 * 512 + 2047`, outside the buffer, and the output is not the
all-zero vector: with memory that reads as zero, `cos` constant `1` and `log`
constant `-23`, entry `0` is `-299`. -/
theorem extractMFCC_short_buffer :
    (∀ n : Nat, actualFrames (n % 2048) = 100) ∧
    (numFrames 0 = 8388605 ∧ actualFrames 0 = 100) ∧
    (99 * 512 + 2047 ∈ sampleReads 0) ∧
    (extractMFCC ⟨3, fun _ => 1, fun _ => -23, fun x => x, fun x _ => x, fun x => x⟩
      (fun _ => 0) 0 22050 (fun _ => 0)).features 0 = -299 := by
  refine ⟨fun n => actualFrames_short _ (Nat.mod_lt _ (by norm_num)), ⟨by decide, by decide⟩,
    ?_, ?_⟩
  · rw [mem_sampleReads]
    refine ⟨99, by rw [actualFrames_short 0 (by norm_num)]; norm_num, 2047, ?_, rfl⟩
    unfold computePowerSpectrumReads N_FFT
    simp only [List.mem_flatMap, List.mem_range]
    exact ⟨0, by norm_num, by simp⟩
  · have h := extractMFCC_constant
      ⟨3, fun _ => 1, fun _ => -23, fun x => x, fun x _ => x, fun x => x⟩ (fun _ => 0) 0 22050
      (fun _ => 0) (fun _ => -299) rfl
      (fun f _ k hk => by
        rw [frameMFCC_silence _ 22050 f k hk]
        simp
        norm_num) 0 (by norm_num)
    exact h.1

/-- C14. Frame cap.  For every buffer of `n >= 2048` samples (`n` a
`size_t`), the number of frames processed is
`min(floor((n - 2048) / 512) + 1, 100)`; the output of `extractMFCC` is
unchanged by any change to the samples at index `52,736 = 99 * 512 + 2048` or
above; with the configured buffer of 220,500 samples 427 frames fit and 100
are processed. -/
theorem extractMFCC_frame_cap :
    (∀ n : Nat, 2048 ≤ n → n < 4294967296 →
      actualFrames n = min ((n - 2048) / 512 + 1) 100) ∧
    (∀ (L : Libm) (samples samples2 : Nat → Int) (numSamples : Nat) (sampleRate : Int)
        (features : Nat → ℚ),
      (∀ j, j < 52736 → samples2 j = samples j) →
      extractMFCC L samples2 numSamples sampleRate features
        = extractMFCC L samples numSamples sampleRate features) ∧
    (99 * 512 + 2048 = 52736 ∧ AUDIO_BUFFER_SIZE = 220500 ∧
      (AUDIO_BUFFER_SIZE - 2048) / 512 + 1 = 427 ∧ numFrames AUDIO_BUFFER_SIZE = 427 ∧
      actualFrames AUDIO_BUFFER_SIZE = 100) := by
  refine ⟨actualFrames_eq, ?_, rfl, rfl, by decide, by decide, by decide⟩
  intro L samples samples2 numSamples sampleRate features h
  apply extractMFCC_congr
  intro idx hidx
  apply h
  have h1 := sampleReads_lt numSamples idx hidx
  have h2 := (actualFrames_bounds numSamples).2
  omega

/-- Witness of C14: the configured buffer, and a buffer of 3,000 samples with
its two frames. -/
theorem extractMFCC_frame_cap_witness :
    actualFrames 220500 = min ((220500 - 2048) / 512 + 1) 100 ∧
    actualFrames 3000 = 2 :=
  ⟨extractMFCC_frame_cap.1 220500 (by norm_num) (by norm_num),
    by rw [extractMFCC_frame_cap.1 3000 (by norm_num) (by norm_num)]; decide⟩

/-- C15 (code defect). `extractMFCC` calls `dct(melEnergies, mfcc, N_MFCC)`,
so MFCC coefficient `k` of a frame is the DCT-II of the first 13 log-mel
energies only, with `cos(pi * k * (2i + 1) / (2 * 13))`: the bands `13..39`
do not contribute.  On a silent frame, with `cos` constant `1` and `log`
constant `-23`, the code gives `-299` for coefficient `0` where the DCT-II of
all `N_MELS = 40` bands is `-920`. -/
theorem frameMFCC_uses_first_13_bands :
    (∀ (L : Libm) (samples : Nat → Int) (sampleRate : Int) (f k : Nat),
      frameMFCC L samples sampleRate f k
        = if k < 13 then dctII L (frameMelEnergies L samples sampleRate f) 13 k else 0) ∧
    (N_MELS = 40 ∧ N_MFCC = 13) ∧
    frameMFCC ⟨3, fun _ => 1, fun _ => -23, fun x => x, fun x _ => x, fun x => x⟩
      (fun _ => 0) 22050 0 0 = -299 ∧
    dctII ⟨3, fun _ => 1, fun _ => -23, fun x => x, fun x _ => x, fun x => x⟩
      (frameMelEnergies ⟨3, fun _ => 1, fun _ => -23, fun x => x, fun x _ => x, fun x => x⟩
        (fun _ => 0) 22050 0) 40 0 = -920 := by
  refine ⟨frameMFCC_apply, ⟨rfl, rfl⟩, ?_, ?_⟩
  · rw [frameMFCC_silence _ 22050 0 0 (by norm_num)]
    simp
    norm_num
  · unfold dctII
    rw [Finset.sum_congr rfl (fun i hi => by
      rw [frameMelEnergies_silence _ 22050 0 i (by simpa using hi)])]
    simp
    norm_num

/-! ## Hive sensor: deltas and sample access -/

/-- With at most two frames the delta and delta-delta entries are zero. -/
theorem extractMFCC_few_frames (L : Libm) (samples : Nat → Int) (numSamples : Nat)
    (sampleRate : Int) (features : Nat → ℚ) (hsqrt : L.sqrt 0 = 0)
    (hF : actualFrames numSamples ≤ 2) (i : Nat) (hi : i < 13) :
    (extractMFCC L samples numSamples sampleRate features).features (13 + i) = 0 ∧
    (extractMFCC L samples numSamples sampleRate features).features (26 + i) = 0 ∧
    (extractMFCC L samples numSamples sampleRate features).features (52 + i) = 0 ∧
    (extractMFCC L samples numSamples sampleRate features).features (65 + i) = 0 := by
  obtain ⟨⟨h1, _⟩, _, _, _, hc⟩ := extractMFCC_cells L samples numSamples sampleRate features
  obtain ⟨_, c1, c2, _, c4, c5⟩ := hc i hi
  have hD := deltaTable_zero_of_few (actualFrames numSamples)
    (mfccFramesTable L samples numSamples sampleRate) hF
  have hD2 := deltaTable_zero_of_few (actualFrames numSamples)
    (deltaTable (actualFrames numSamples) (mfccFramesTable L samples numSamples sampleRate)) hF
  refine ⟨?_, ?_, ?_, ?_⟩
  · rw [c1]; exact acrossFrameMean_const _ _ _ _ h1 (fun f _ => hD f i)
  · rw [c2]; exact acrossFrameMean_const _ _ _ _ h1 (fun f _ => hD2 f i)
  · rw [c4]; exact acrossFrameStd_const L _ _ _ _ hsqrt h1 (fun f _ => hD f i)
  · rw [c5]; exact acrossFrameStd_const L _ _ _ _ hsqrt h1 (fun f _ => hD2 f i)

/-- C16. Delta computation.  For every table of `F` frames and every
coefficient `i`, `delta[f][i] = (src[f+1][i] - src[f-1][i]) / 2` for
`0 < f < F - 1` and `0` for `f = 0` and `f = F - 1`; delta-delta is the same
centered difference applied to delta.  When at most two frames are processed
every delta and delta-delta value is `0`, and (with `sqrt 0 = 0`) so are the
feature entries `13..38` and `52..77`. -/
theorem deltaTable_centered_difference :
    (∀ (F : Nat) (src : Nat → Nat → ℚ) (f i : Nat), f < F → i < 13 →
      deltaTable F src f i
        = if 0 < f ∧ f + 1 < F then (src (f + 1) i - src (f - 1) i) / 2 else 0) ∧
    (∀ (F : Nat) (src : Nat → Nat → ℚ) (i : Nat), 0 < F → i < 13 →
      deltaTable F src 0 i = 0 ∧ deltaTable F src (F - 1) i = 0) ∧
    (∀ (F : Nat) (src : Nat → Nat → ℚ) (f i : Nat), f < F → i < 13 →
      deltaTable F (deltaTable F src) f i
        = if 0 < f ∧ f + 1 < F then
            (deltaTable F src (f + 1) i - deltaTable F src (f - 1) i) / 2
          else 0) ∧
    (∀ (L : Libm) (samples : Nat → Int) (numSamples : Nat) (sampleRate : Int)
        (features : Nat → ℚ),
      L.sqrt 0 = 0 → actualFrames numSamples ≤ 2 →
      (∀ f i,
        deltaTable (actualFrames numSamples)
          (mfccFramesTable L samples numSamples sampleRate) f i = 0 ∧
        deltaTable (actualFrames numSamples)
          (deltaTable (actualFrames numSamples)
            (mfccFramesTable L samples numSamples sampleRate)) f i = 0) ∧
      ∀ i, i < 13 →
        (extractMFCC L samples numSamples sampleRate features).features (13 + i) = 0 ∧
        (extractMFCC L samples numSamples sampleRate features).features (26 + i) = 0 ∧
        (extractMFCC L samples numSamples sampleRate features).features (52 + i) = 0 ∧
        (extractMFCC L samples numSamples sampleRate features).features (65 + i) = 0) := by
  have key : ∀ (F : Nat) (src : Nat → Nat → ℚ) (f i : Nat), f < F → i < 13 →
      deltaTable F src f i
        = if 0 < f ∧ f + 1 < F then (src (f + 1) i - src (f - 1) i) / 2 else 0 := by
    intro F src f i hf hi
    rw [deltaTable_apply]
    by_cases c : 0 < f ∧ f + 1 < F
    · rw [if_pos ⟨⟨hf, hi⟩, c⟩, if_pos c]
    · rw [if_neg (fun hh => c hh.2), if_neg c]
  refine ⟨key, ?_, fun F src f i hf hi => key F (deltaTable F src) f i hf hi, ?_⟩
  · intro F src i hF hi
    constructor
    · rw [key F src 0 i hF hi, if_neg (by omega)]
    · rw [key F src (F - 1) i (by omega) hi, if_neg (by omega)]
  · intro L samples numSamples sampleRate features hsqrt hF
    refine ⟨fun f i => ⟨deltaTable_zero_of_few _ _ hF f i, deltaTable_zero_of_few _ _ hF f i⟩, ?_⟩
    intro i hi
    exact extractMFCC_few_frames L samples numSamples sampleRate features hsqrt hF i hi

/-- Witness of C16: an inner frame of a table of three frames, and a buffer of
one frame. -/
theorem deltaTable_centered_difference_witness :
    deltaTable 3 (fun f i => ((f * f + i : Nat) : ℚ)) 1 2 = 2 ∧
    actualFrames 2048 ≤ 2 ∧
    (extractMFCC ⟨3, fun _ => 1, fun _ => -23, fun x => x, fun x _ => x, fun x => x⟩
      (fun j => (j : Int) % 7) 2048 22050 (fun _ => 7)).features (52 + 4) = 0 := by
  have hF : actualFrames 2048 ≤ 2 := by decide
  refine ⟨?_, hF, ?_⟩
  · rw [deltaTable_centered_difference.1 3 _ 1 2 (by norm_num) (by norm_num)]
    norm_num
  · exact ((deltaTable_centered_difference.2.2.2
      ⟨3, fun _ => 1, fun _ => -23, fun x => x, fun x _ => x, fun x => x⟩
      (fun j => (j : Int) % 7) 2048 22050 (fun _ => 7) rfl hF).2 4 (by norm_num)).2.2.1

/-- A frame of 2048 samples is read in full. -/
theorem mem_reads_2048 (j : Nat) : j ∈ computePowerSpectrumReads 2048 ↔ j < 2048 := by
  constructor
  · exact mem_computePowerSpectrumReads 2048 j
  · intro h
    unfold computePowerSpectrumReads
    simp only [List.mem_flatMap, List.mem_range, List.mem_cons, List.mem_singleton,
      List.not_mem_nil, or_false]
    by_cases c : j < 1024
    · exact ⟨j, by omega, Or.inl rfl⟩
    · exact ⟨2047 - j, by omega, Or.inr (by omega)⟩

/-- C18. In-bounds sample access.  The samples `extractMFCC` reads are those
at `f * 512 + j` with `0 <= j < 2048` for each processed frame `f`, and its
output depends on no other sample.  For every buffer with
`numSamples >= 2048` (a `size_t`) every such index is strictly below
`numSamples`, and every row index written to the per-frame tables is below
`100`. -/
theorem extractMFCC_reads_in_bounds :
    (∀ n idx : Nat, idx ∈ sampleReads n ↔
      ∃ f j, f < actualFrames n ∧ j < 2048 ∧ idx = f * 512 + j) ∧
    (∀ n : Nat, 2048 ≤ n → n < 4294967296 →
      (∀ idx, idx ∈ sampleReads n → idx < n) ∧
      (∀ f, f ∈ frameRowsWritten n → f < 100)) ∧
    (∀ (L : Libm) (samples samples2 : Nat → Int) (numSamples : Nat) (sampleRate : Int)
        (features : Nat → ℚ),
      (∀ idx, idx ∈ sampleReads numSamples → samples2 idx = samples idx) →
      extractMFCC L samples2 numSamples sampleRate features
        = extractMFCC L samples numSamples sampleRate features) := by
  refine ⟨?_, ?_, extractMFCC_congr⟩
  · intro n idx
    rw [mem_sampleReads]
    unfold N_FFT HOP_LENGTH
    constructor
    · rintro ⟨f, hf, j, hj, rfl⟩
      exact ⟨f, j, hf, (mem_reads_2048 j).1 hj, rfl⟩
    · rintro ⟨f, j, hf, hj, rfl⟩
      exact ⟨f, hf, j, (mem_reads_2048 j).2 hj, rfl⟩
  · intro n h1 h2
    constructor
    · intro idx hidx
      have h3 := sampleReads_lt n idx hidx
      have h4 := actualFrames_eq n h1 h2
      omega
    · intro f hf
      unfold frameRowsWritten at hf
      have := (actualFrames_bounds n).2
      have := List.mem_range.1 hf
      omega

/-- Witness of C18: the last sample read from the configured buffer, and the
last row written. -/
theorem extractMFCC_reads_in_bounds_witness :
    99 * 512 + 2047 ∈ sampleReads 220500 ∧ 99 * 512 + 2047 < 220500 ∧
    99 ∈ frameRowsWritten 220500 ∧ 99 < 100 := by
  have hm : 99 * 512 + 2047 ∈ sampleReads 220500 :=
    (extractMFCC_reads_in_bounds.1 220500 _).2 ⟨99, 2047, by decide, by norm_num, rfl⟩
  have hr : 99 ∈ frameRowsWritten 220500 := by
    unfold frameRowsWritten
    rw [List.mem_range]
    decide
  have h := extractMFCC_reads_in_bounds.2.1 220500 (by norm_num) (by norm_num)
  exact ⟨hm, h.1 _ hm, hr, h.2 _ hr⟩

end Buzzhive
